import Mathlib

/-!
Verification of the pi-hooks repository: a shallow embedding of the
command-classification / permission gate (src/autonomy/autonomy.ts) and of the
git-checkpoint subsystem (src/unnamed/part_003, src/checkpoint/checkpoint.ts),
together with proofs of the specification's testable properties.

Strings are modelled as `List Char`.  JavaScript regular expressions used by the
source are embedded as executable matchers over `List Char`; external platform
functions (the git CLI, JavaScript `Date`) are modelled by explicit parameters
or by small abstract-state semantics documented at their definitions.
-/

namespace PiHooks

/-! ## Basic character and string utilities (JavaScript semantics, ASCII range) -/

/-- JavaScript whitespace test, restricted to the ASCII whitespace characters
that can occur in the command strings this code handles: space, tab, line feed,
carriage return, vertical tab, form feed. -/
def isWsChar (c : Char) : Bool :=
  c = ' ' || c = '\t' || c = '\n' || c = '\r' || c = '\x0b' || c = '\x0c'

/-- Regex word character class `\w`: ASCII letters, digits and underscore. -/
def isWordChar (c : Char) : Bool :=
  ('a' ≤ c && c ≤ 'z') || ('A' ≤ c && c ≤ 'Z') || ('0' ≤ c && c ≤ '9') || c = '_'

/-- ASCII lower-casing, used to model the `i` flag of case-insensitive regexes. -/
def lowerChar (c : Char) : Char :=
  if 'A' ≤ c ∧ c ≤ 'Z' then Char.ofNat (c.toNat + 32) else c

/-- JavaScript `String.prototype.trim`, left half: drop leading whitespace. -/
def trimLeft (s : List Char) : List Char := s.dropWhile isWsChar

/-- JavaScript `String.prototype.trim`, right half: drop trailing whitespace. -/
def trimRight (s : List Char) : List Char := (s.reverse.dropWhile isWsChar).reverse

/-- JavaScript `String.prototype.trim`. -/
def jsTrim (s : List Char) : List Char := trimRight (trimLeft s)

/-- JavaScript `String.prototype.split` with a single-character separator. -/
def splitOnChar (sep : Char) : List Char → List (List Char)
  | [] => [[]]
  | c :: rest =>
    match splitOnChar sep rest with
    | [] => [[]]
    | h :: t => if c = sep then [] :: h :: t else (c :: h) :: t

/-- JavaScript `Array.prototype.join` with separator `"\n"`. -/
def joinLines : List (List Char) → List Char
  | [] => []
  | [l] => l
  | l :: ls => l ++ '\n' :: joinLines ls

theorem splitOnChar_no_sep (sep : Char) (l : List Char) (h : sep ∉ l) :
    splitOnChar sep l = [l] := by
  induction l with
  | nil => rfl
  | cons c rest ih =>
    have hc : c ≠ sep := fun hc => h (hc ▸ List.mem_cons_self c rest)
    have hr : sep ∉ rest := fun hr => h (List.mem_cons_of_mem c hr)
    simp [splitOnChar, ih hr, hc]

theorem splitOnChar_append_sep (sep : Char) (l t : List Char) (h : sep ∉ l) :
    splitOnChar sep (l ++ sep :: t) = l :: splitOnChar sep t := by
  induction l with
  | nil =>
    simp [splitOnChar]
    cases hs : splitOnChar sep t with
    | nil => simp [hs]
    | cons a b => simp [hs]
  | cons c rest ih =>
    have hc : c ≠ sep := fun hc => h (hc ▸ List.mem_cons_self c rest)
    have hr : sep ∉ rest := fun hr => h (List.mem_cons_of_mem c hr)
    simp only [List.cons_append, splitOnChar, List.append_eq]
    rw [ih hr]
    simp [hc]

theorem splitOnChar_joinLines (ls : List (List Char)) (hne : ls ≠ [])
    (h : ∀ l ∈ ls, '\n' ∉ l) : splitOnChar '\n' (joinLines ls) = ls := by
  induction ls with
  | nil => exact absurd rfl hne
  | cons l rest ih =>
    cases rest with
    | nil =>
      exact splitOnChar_no_sep '\n' l (h l (List.mem_cons_self l []))
    | cons l₂ rest₂ =>
      have hl : '\n' ∉ l := h l (List.mem_cons_self _ _)
      have hrest : ∀ x ∈ l₂ :: rest₂, '\n' ∉ x := fun x hx => h x (List.mem_cons_of_mem l hx)
      have : joinLines (l :: l₂ :: rest₂) = l ++ '\n' :: joinLines (l₂ :: rest₂) := rfl
      rw [this, splitOnChar_append_sep '\n' l _ hl, ih (by simp) hrest]

theorem trimLeft_of_head_not_ws (s : List Char) (h : ∀ c ∈ s, isWsChar c = false) :
    trimLeft s = s := by
  cases s with
  | nil => rfl
  | cons c rest => simp [trimLeft, List.dropWhile_cons, h c (List.mem_cons_self c rest)]

theorem trimRight_of_all_not_ws (s : List Char) (h : ∀ c ∈ s, isWsChar c = false) :
    trimRight s = s := by
  unfold trimRight
  rw [List.dropWhile_eq_self_iff.mpr, List.reverse_reverse]
  intro hx
  exact (by simpa using h _ (by simpa using List.head_mem hx))

theorem jsTrim_of_all_not_ws (s : List Char) (h : ∀ c ∈ s, isWsChar c = false) :
    jsTrim s = s := by
  unfold jsTrim
  rw [trimLeft_of_head_not_ws s h, trimRight_of_all_not_ws s h]

/-! ## Decimal rendering and JavaScript `parseInt` -/

/-- Decimal digit character for a value below ten. -/
def digitChar : Nat → Char
  | 0 => '0' | 1 => '1' | 2 => '2' | 3 => '3' | 4 => '4'
  | 5 => '5' | 6 => '6' | 7 => '7' | 8 => '8' | _ => '9'

/-- Structurally recursive worker for decimal rendering; `fuel` bounds the
digit count so that the definition reduces inside the kernel. -/
def natReprAux (fuel : Nat) (n : Nat) : List Char :=
  match fuel with
  | 0 => []
  | fuel + 1 =>
    if n < 10 then [digitChar n]
    else natReprAux fuel (n / 10) ++ [digitChar (n % 10)]

/-- Decimal rendering of a natural number, as produced by JavaScript template
interpolation of a non-negative integer. -/
def natRepr (n : Nat) : List Char := natReprAux (n + 1) n

/-- Decimal rendering of an integer. -/
def intRepr (n : Int) : List Char :=
  if n < 0 then '-' :: natRepr (-n).toNat else natRepr n.toNat

def isDigitChar (c : Char) : Bool := '0' ≤ c && c ≤ '9'

def digitVal (c : Char) : Nat := c.toNat - 48

/-- Longest digit run at the head of the string. -/
def leadingDigits : List Char → List Char
  | [] => []
  | c :: rest => if isDigitChar c then c :: leadingDigits rest else []

def digitsToNat (l : List Char) : Nat := l.foldl (fun a c => a * 10 + digitVal c) 0

/-- JavaScript `parseInt(s, 10)`: skip leading whitespace, optional sign, then
the leading digit run; `none` models the `NaN` result. -/
def jsParseInt (s : List Char) : Option Int :=
  match s.dropWhile isWsChar with
  | [] => none
  | c :: rest =>
    if c = '-' then
      if leadingDigits rest = [] then none
      else some (-(digitsToNat (leadingDigits rest) : Int))
    else if c = '+' then
      if leadingDigits rest = [] then none
      else some (digitsToNat (leadingDigits rest) : Int)
    else
      if leadingDigits (c :: rest) = [] then none
      else some (digitsToNat (leadingDigits (c :: rest)) : Int)

theorem digitChar_isDigit (d : Nat) : isDigitChar (digitChar d) = true := by
  unfold digitChar
  split <;> decide

theorem digitVal_digitChar (d : Nat) (h : d < 10) : digitVal (digitChar d) = d := by
  interval_cases d <;> decide

theorem natReprAux_all_digits (fuel : Nat) : ∀ n, n < fuel →
    ∀ c ∈ natReprAux fuel n, isDigitChar c = true := by
  induction fuel with
  | zero => omega
  | succ fuel ih =>
    intro n _ c hc
    rw [natReprAux] at hc
    by_cases h : n < 10
    · simp [h] at hc
      exact hc ▸ digitChar_isDigit n
    · simp [h] at hc
      rcases hc with hc | hc
      · exact ih (n / 10) (by omega) c hc
      · exact hc ▸ digitChar_isDigit (n % 10)

theorem natRepr_all_digits (n : Nat) : ∀ c ∈ natRepr n, isDigitChar c = true :=
  natReprAux_all_digits (n + 1) n (by omega)

theorem natRepr_ne_nil (n : Nat) : natRepr n ≠ [] := by
  rw [natRepr, natReprAux]
  split <;> simp

theorem digitsToNat_append_digit (l : List Char) (c : Char) :
    digitsToNat (l ++ [c]) = digitsToNat l * 10 + digitVal c := by
  simp [digitsToNat, List.foldl_append]

theorem digitsToNat_natReprAux (fuel : Nat) : ∀ n, n < fuel →
    digitsToNat (natReprAux fuel n) = n := by
  induction fuel with
  | zero => omega
  | succ fuel ih =>
    intro n hn
    rw [natReprAux]
    by_cases h : n < 10
    · simp [h, digitsToNat, digitVal_digitChar n h]
    · simp only [h, if_false, digitsToNat_append_digit,
        ih (n / 10) (by omega), digitVal_digitChar (n % 10) (by omega)]
      omega

theorem digitsToNat_natRepr (n : Nat) : digitsToNat (natRepr n) = n :=
  digitsToNat_natReprAux (n + 1) n (by omega)

theorem leadingDigits_of_all_digits (l : List Char) (h : ∀ c ∈ l, isDigitChar c = true) :
    leadingDigits l = l := by
  induction l with
  | nil => rfl
  | cons c rest ih =>
    simp [leadingDigits, h c (List.mem_cons_self c rest),
      ih (fun x hx => h x (List.mem_cons_of_mem c hx))]

theorem digit_not_ws (c : Char) (h : isDigitChar c = true) : isWsChar c = false := by
  simp only [isDigitChar, Bool.and_eq_true, decide_eq_true_eq] at h
  simp only [isWsChar, Bool.or_eq_false_iff, decide_eq_false_iff_not]
  have h1 := h.1
  have h2 := h.2
  rw [Char.le_def] at h1 h2
  refine ⟨⟨⟨⟨⟨?_, ?_⟩, ?_⟩, ?_⟩, ?_⟩, ?_⟩ <;>
    (intro he; subst he; revert h1 h2; decide)

theorem digit_ne_dash (c : Char) (h : isDigitChar c = true) : c ≠ '-' := by
  intro he
  subst he
  exact absurd h (by decide)

theorem digit_ne_plus (c : Char) (h : isDigitChar c = true) : c ≠ '+' := by
  intro he
  subst he
  exact absurd h (by decide)

/-- JavaScript `parseInt` inverts decimal rendering of naturals. -/
theorem jsParseInt_natRepr (n : Nat) : jsParseInt (natRepr n) = some (n : Int) := by
  have hd := natRepr_all_digits n
  have hnw : ∀ c ∈ natRepr n, isWsChar c = false := fun c hc => digit_not_ws c (hd c hc)
  have hdrop : (natRepr n).dropWhile isWsChar = natRepr n := by
    cases hr : natRepr n with
    | nil => rfl
    | cons c rest =>
      simp [List.dropWhile_cons, hnw c (by rw [hr]; exact List.mem_cons_self c rest)]
  unfold jsParseInt
  rw [hdrop]
  cases hr : natRepr n with
  | nil => exact absurd hr (natRepr_ne_nil n)
  | cons c rest =>
    have hcd : isDigitChar c = true := hd c (by rw [hr]; exact List.mem_cons_self c rest)
    have hld : leadingDigits (c :: rest) = c :: rest := by
      rw [← hr]
      exact leadingDigits_of_all_digits _ hd
    have hc1 : c ≠ '-' := digit_ne_dash c hcd
    have hc2 : c ≠ '+' := digit_ne_plus c hcd
    have hval : digitsToNat (c :: rest) = n := by rw [← hr]; exact digitsToNat_natRepr n
    have hne : c :: rest ≠ [] := by simp
    simp only [hc1, hc2, if_false, hld]
    rw [if_neg hne, hval]

/-! ## Dangerous chaining detection

Embeds `DANGEROUS_CHAINING_RE` from src/autonomy/autonomy.ts line 287, the
regex that blocks backtick, two ampersands, two pipes, dollar-paren, a single
ampersand, and a semicolon not preceded by a backslash.  The two-ampersand
alternative is subsumed by the single-ampersand one, exactly as in the regex.
The scan carries the previous character to decide the negative lookbehind. -/

def chainScan : Option Char → List Char → Bool
  | _, [] => false
  | prev, c :: rest =>
    if c = '`' then true
    else if c = '&' then true
    else if c = '|' ∧ rest.head? = some '|' then true
    else if c = '$' ∧ rest.head? = some '(' then true
    else if c = ';' ∧ prev ≠ some '\\' then true
    else chainScan (some c) rest

/-- Test of `DANGEROUS_CHAINING_RE` on a whole string. -/
def hasDangerousChaining (s : List Char) : Bool := chainScan none s

theorem chainScan_prev_irrel (p q : Option Char) (s : List Char)
    (hp : p ≠ some '\\') (hq : q ≠ some '\\') : chainScan p s = chainScan q s := by
  cases s with
  | nil => rfl
  | cons c rest =>
    simp only [chainScan]
    by_cases h1 : c = '`'
    · simp [h1]
    · by_cases h2 : c = '&'
      · simp [h1, h2]
      · by_cases h3 : c = '|' ∧ rest.head? = some '|'
        · simp [h1, h2, h3]
        · by_cases h4 : c = '$' ∧ rest.head? = some '('
          · simp [h1, h2, h3, h4]
          · by_cases h5 : c = ';'
            · simp [h1, h2, h3, h4, h5, hp, hq]
            · simp [h1, h2, h3, h4, h5]

theorem ws_char_cases (c : Char) (h : isWsChar c = true) :
    c = ' ' ∨ c = '\t' ∨ c = '\n' ∨ c = '\r' ∨ c = '\x0b' ∨ c = '\x0c' := by
  simp only [isWsChar, Bool.or_eq_true, decide_eq_true_eq] at h
  tauto

theorem chainScan_all_ws (p : Option Char) (t : List Char)
    (h : ∀ c ∈ t, isWsChar c = true) : chainScan p t = false := by
  induction t generalizing p with
  | nil => rfl
  | cons c rest ih =>
    have hc := ws_char_cases c (h c (List.mem_cons_self c rest))
    have hrest : ∀ x ∈ rest, isWsChar x = true := fun x hx => h x (List.mem_cons_of_mem c hx)
    have step : chainScan p (c :: rest) = chainScan (some c) rest := by
      rcases hc with hc | hc | hc | hc | hc | hc <;> subst hc <;> simp [chainScan]
    rw [step]
    exact ih (some c) hrest

theorem head_ws_of_all_ws (t : List Char) (h : ∀ c ∈ t, isWsChar c = true) (c : Char)
    (hc : t.head? = some c) : isWsChar c = true := by
  cases t with
  | nil => simp at hc
  | cons a rest =>
    simp only [List.head?] at hc
    exact (Option.some.injEq a c ▸ hc : a = c) ▸ h a (List.mem_cons_self a rest)

theorem chainScan_append_ws (p : Option Char) (s t : List Char)
    (h : ∀ c ∈ t, isWsChar c = true) : chainScan p (s ++ t) = chainScan p s := by
  induction s generalizing p with
  | nil =>
    simp only [List.nil_append]
    rw [chainScan_all_ws p t h]
    rfl
  | cons c rest ih =>
    simp only [List.cons_append, chainScan, List.append_eq]
    have hpipe : ((rest ++ t).head? = some '|') = (rest.head? = some '|') := by
      cases rest with
      | nil =>
        simp only [List.nil_append, List.head?_nil]
        cases ht : t.head? with
        | none => simp [ht]
        | some a =>
          have := head_ws_of_all_ws t h a ht
          simp only [ht, eq_iff_iff, iff_false]
          constructor
          · intro hx
            have : a = '|' := by injection hx
            subst this
            exact absurd this (by decide)
          · intro hx
            exact absurd hx (by simp)
      | cons b brest => simp
    have hparen : ((rest ++ t).head? = some '(') = (rest.head? = some '(') := by
      cases rest with
      | nil =>
        simp only [List.nil_append, List.head?_nil]
        cases ht : t.head? with
        | none => simp [ht]
        | some a =>
          have := head_ws_of_all_ws t h a ht
          simp only [ht, eq_iff_iff, iff_false]
          constructor
          · intro hx
            have : a = '(' := by injection hx
            subst this
            exact absurd this (by decide)
          · intro hx
            exact absurd hx (by simp)
      | cons b brest => simp
    simp only [hpipe, hparen, ih (some c)]

theorem all_ws_takeWhile (l : List Char) : ∀ c ∈ l.takeWhile isWsChar, isWsChar c = true := by
  induction l with
  | nil => simp
  | cons a rest ih =>
    by_cases ha : isWsChar a = true
    · simp only [List.takeWhile_cons, ha, if_true]
      intro c hc
      rcases List.mem_cons.mp hc with hc | hc
      · exact hc ▸ ha
      · exact ih c hc
    · simp only [List.takeWhile_cons, ha]
      simp [ha]

theorem chainScan_trimLeft (s : List Char) :
    chainScan none (trimLeft s) = chainScan none s := by
  induction s with
  | nil => rfl
  | cons c rest ih =>
    by_cases hc : isWsChar c = true
    · have step : chainScan none (c :: rest) = chainScan (some c) rest := by
        rcases ws_char_cases c hc with h | h | h | h | h | h <;> subst h <;> simp [chainScan]
      have hne : some c ≠ some '\\' := by
        intro hx
        have : c = '\\' := by injection hx
        subst this
        exact absurd hc (by decide)
      rw [trimLeft, List.dropWhile_cons]
      simp only [hc, if_true]
      rw [step, chainScan_prev_irrel (some c) none rest hne (by simp), ← ih]
      rfl
    · rw [trimLeft, List.dropWhile_cons]
      simp [hc]

theorem chainScan_trimRight (s : List Char) :
    chainScan none (trimRight s) = chainScan none s := by
  have h1 : s.reverse.takeWhile isWsChar ++ s.reverse.dropWhile isWsChar = s.reverse :=
    List.takeWhile_append_dropWhile isWsChar s.reverse
  have h2 := congrArg List.reverse h1
  rw [List.reverse_append, List.reverse_reverse] at h2
  have hws : ∀ c ∈ (s.reverse.takeWhile isWsChar).reverse, isWsChar c = true := by
    intro c hc
    exact all_ws_takeWhile s.reverse c (List.mem_reverse.mp hc)
  calc chainScan none (trimRight s)
      = chainScan none (trimRight s ++ (s.reverse.takeWhile isWsChar).reverse) :=
        (chainScan_append_ws none _ _ hws).symm
    _ = chainScan none s := by
        unfold trimRight
        rw [h2]

/-- Trimming does not change whether a command contains dangerous chaining. -/
theorem hasDangerousChaining_jsTrim (s : List Char) :
    hasDangerousChaining (jsTrim s) = hasDangerousChaining s := by
  unfold hasDangerousChaining jsTrim
  rw [chainScan_trimRight, chainScan_trimLeft]

/-! ## Regular-expression embedding

A matcher consumes a prefix of the input and returns the list of possible
remainders (backtracking).  `rxMatches` tests whether a match exists at the
start of the input; `rxSearch` tests at every position, tracking the previous
character so that the word-boundary assertions of the source regexes can be
decided.  Patterns from the source are built from these combinators literal by
literal; the `i` flag is modelled by `rxLitCI` (ASCII lower-casing). -/

def Rx := List Char → List (List Char)

def dropLit : List Char → List Char → Option (List Char)
  | [], s => some s
  | _ :: _, [] => none
  | a :: as, b :: bs => if a = b then dropLit as bs else none

def dropLitCI : List Char → List Char → Option (List Char)
  | [], s => some s
  | _ :: _, [] => none
  | a :: as, b :: bs => if a = lowerChar b then dropLitCI as bs else none

def rxLit (w : List Char) : Rx := fun s =>
  match dropLit w s with
  | some r => [r]
  | none => []

def rxLitCI (w : List Char) : Rx := fun s =>
  match dropLitCI w s with
  | some r => [r]
  | none => []

def rxSeq (p q : Rx) : Rx := fun s => (p s).flatMap q

def rxAlts (ps : List Rx) : Rx := fun s => ps.flatMap (fun p => p s)

def rxOpt (p : Rx) : Rx := fun s => s :: p s

/-- Matcher for `\s+` (one or more whitespace characters). -/
def rxWsPlus : List Char → List (List Char)
  | [] => []
  | c :: rest => if isWsChar c then rest :: rxWsPlus rest else []

/-- Matcher for `\s*`. -/
def rxWsStar : Rx := fun s => s :: rxWsPlus s

/-- Matcher for `.*` (any characters except line terminators). -/
def rxDotStar : List Char → List (List Char)
  | [] => [[]]
  | c :: rest => if c = '\n' then [c :: rest] else (c :: rest) :: rxDotStar rest

/-- Matcher for the `$` anchor (end of input; the source regexes have no `m` flag). -/
def rxEndAnchor : Rx := fun s => if s.isEmpty then [[]] else []

/-- Matcher for `\b` placed after a word character. -/
def rxWordBoundary : Rx := fun s =>
  match s.head? with
  | none => [s]
  | some c => if isWordChar c then [] else [s]

def rxMatches (m : Rx) (s : List Char) : Bool := !(m s).isEmpty

def rxSearchAux (startOk : Option Char → Bool) (m : Rx) (prev : Option Char) :
    List Char → Bool
  | [] => false
  | c :: rest => (startOk prev && rxMatches m (c :: rest)) || rxSearchAux startOk m (some c) rest

def rxSearch (startOk : Option Char → Bool) (m : Rx) (s : List Char) : Bool :=
  rxSearchAux startOk m none s

/-- Boundary `\b` before a word character: previous character absent or not a word character. -/
def boundaryBeforeWord : Option Char → Bool
  | none => true
  | some c => !isWordChar c

/-- Boundary `\b` before a non-word character: previous character must be a word character. -/
def boundaryBeforeNonWord : Option Char → Bool
  | none => false
  | some c => isWordChar c

/-! ## Pattern tables from src/autonomy/autonomy.ts lines 287-302 -/

def wLs : List Char := ['l', 's']
def wPwd : List Char := ['p', 'w', 'd']
def wEcho : List Char := ['e', 'c', 'h', 'o']
def wCat : List Char := ['c', 'a', 't']
def wHead : List Char := ['h', 'e', 'a', 'd']
def wTail : List Char := ['t', 'a', 'i', 'l']
def wWc : List Char := ['w', 'c']
def wWhich : List Char := ['w', 'h', 'i', 'c', 'h']
def wWhoami : List Char := ['w', 'h', 'o', 'a', 'm', 'i']
def wDate : List Char := ['d', 'a', 't', 'e']
def wUname : List Char := ['u', 'n', 'a', 'm', 'e']
def wEnv : List Char := ['e', 'n', 'v']
def wPrintenv : List Char := ['p', 'r', 'i', 'n', 't', 'e', 'n', 'v']
def wType : List Char := ['t', 'y', 'p', 'e']
def wFile : List Char := ['f', 'i', 'l', 'e']
def wStat : List Char := ['s', 't', 'a', 't']
def wDf : List Char := ['d', 'f']
def wDu : List Char := ['d', 'u']
def wFree : List Char := ['f', 'r', 'e', 'e']
def wUptime : List Char := ['u', 'p', 't', 'i', 'm', 'e']
def wGrep : List Char := ['g', 'r', 'e', 'p']
def wFind : List Char := ['f', 'i', 'n', 'd']
def wSort : List Char := ['s', 'o', 'r', 't']
def wUniq : List Char := ['u', 'n', 'i', 'q']
def wCut : List Char := ['c', 'u', 't']
def wAwk : List Char := ['a', 'w', 'k']
def wSed : List Char := ['s', 'e', 'd']
def wTr : List Char := ['t', 'r']
def wLess : List Char := ['l', 'e', 's', 's']
def wMore : List Char := ['m', 'o', 'r', 'e']
def wPs : List Char := ['p', 's']
def wTop : List Char := ['t', 'o', 'p']
def wHtop : List Char := ['h', 't', 'o', 'p']
def wLocate : List Char := ['l', 'o', 'c', 'a', 't', 'e']
def wTree : List Char := ['t', 'r', 'e', 'e']
def wGit : List Char := ['g', 'i', 't']
def wStatus : List Char := ['s', 't', 'a', 't', 'u', 's']
def wLog : List Char := ['l', 'o', 'g']
def wDiff : List Char := ['d', 'i', 'f', 'f']
def wBranch : List Char := ['b', 'r', 'a', 'n', 'c', 'h']
def wShow : List Char := ['s', 'h', 'o', 'w']
def wNpm : List Char := ['n', 'p', 'm']
def wList : List Char := ['l', 'i', 's', 't']
def wYarn : List Char := ['y', 'a', 'r', 'n']
def wPnpm : List Char := ['p', 'n', 'p', 'm']
def wNode : List Char := ['n', 'o', 'd', 'e']
def wPython : List Char := ['p', 'y', 't', 'h', 'o', 'n']
def wDashDashVersion : List Char := ['-', '-', 'v', 'e', 'r', 's', 'i', 'o', 'n']
def wInstall : List Char := ['i', 'n', 's', 't', 'a', 'l', 'l']
def wCi : List Char := ['c', 'i']
def wTest : List Char := ['t', 'e', 's', 't']
def wRun : List Char := ['r', 'u', 'n']
def wBuild : List Char := ['b', 'u', 'i', 'l', 'd']
def wStart : List Char := ['s', 't', 'a', 'r', 't']
def wAdd : List Char := ['a', 'd', 'd']
def wPip : List Char := ['p', 'i', 'p']
def wCargo : List Char := ['c', 'a', 'r', 'g', 'o']
def wGo : List Char := ['g', 'o']
def wGet : List Char := ['g', 'e', 't']
def wMake : List Char := ['m', 'a', 'k', 'e']
def wCommit : List Char := ['c', 'o', 'm', 'm', 'i', 't']
def wStash : List Char := ['s', 't', 'a', 's', 'h']
def wCheckout : List Char := ['c', 'h', 'e', 'c', 'k', 'o', 'u', 't']
def wMerge : List Char := ['m', 'e', 'r', 'g', 'e']
def wRebase : List Char := ['r', 'e', 'b', 'a', 's', 'e']
def wFetch : List Char := ['f', 'e', 't', 'c', 'h']
def wPull : List Char := ['p', 'u', 'l', 'l']
def wMkdir : List Char := ['m', 'k', 'd', 'i', 'r']
def wTouch : List Char := ['t', 'o', 'u', 'c', 'h']
def wRm : List Char := ['r', 'm']
def wDashR : List Char := ['-', 'r']
def wF : List Char := ['f']
def wDashDashRecursive : List Char := ['-', '-', 'r', 'e', 'c', 'u', 'r', 's', 'i', 'v', 'e']
def wDashDashForce : List Char := ['-', '-', 'f', 'o', 'r', 'c', 'e']
def wSudo : List Char := ['s', 'u', 'd', 'o']
def wChmod : List Char := ['c', 'h', 'm', 'o', 'd']
def wChown : List Char := ['c', 'h', 'o', 'w', 'n']
def wSevens : List Char := ['7', '7', '7']
def wMkfs : List Char := ['m', 'k', 'f', 's']
def wDd : List Char := ['d', 'd']
def wOfEq : List Char := ['o', 'f', '=']
def wShutdown : List Char := ['s', 'h', 'u', 't', 'd', 'o', 'w', 'n']
def wReboot : List Char := ['r', 'e', 'b', 'o', 'o', 't']
def wHalt : List Char := ['h', 'a', 'l', 't']
def wPoweroff : List Char := ['p', 'o', 'w', 'e', 'r', 'o', 'f', 'f']
def wGt : List Char := ['>']
def wDevSd : List Char := ['/', 'd', 'e', 'v', '/', 's', 'd']
def wSlash : List Char := ['/']
def wPush : List Char := ['p', 'u', 's', 'h']
def wReset : List Char := ['r', 'e', 's', 'e', 't']
def wDashDashHard : List Char := ['-', '-', 'h', 'a', 'r', 'd']
def wPublish : List Char := ['p', 'u', 'b', 'l', 'i', 's', 'h']
def wCurl : List Char := ['c', 'u', 'r', 'l']
def wPipe : List Char := ['|']
def wBa : List Char := ['b', 'a']
def wSh : List Char := ['s', 'h']
def wWget : List Char := ['w', 'g', 'e', 't']

/-- Word alternation followed by a `\b` assertion, the common shape of the
anchored classification regexes. -/
def rxWordAlt (words : List (List Char)) : Rx :=
  rxSeq (rxAlts (words.map rxLit)) rxWordBoundary

/-- The word list of `ALLOWLIST_RE` (autonomy.ts line 290). -/
def ALLOWLIST_WORDS : List (List Char) :=
  [wLs, wPwd, wEcho, wCat, wHead, wTail, wWc, wWhich, wWhoami, wDate, wUname,
   wEnv, wPrintenv, wType, wFile, wStat, wDf, wDu, wFree, wUptime, wGrep, wFind]

/-- The word list of `SAFE_PIPE_RE` (autonomy.ts line 293). -/
def SAFE_PIPE_WORDS : List (List Char) :=
  [wHead, wTail, wWc, wSort, wUniq, wCut, wAwk, wSed, wTr, wGrep, wLess, wMore]

/-- The word list of `READ_ONLY_RE` (autonomy.ts line 296). -/
def READ_ONLY_WORDS : List (List Char) :=
  [wLs, wPwd, wEcho, wCat, wHead, wTail, wWc, wWhich, wWhoami, wDate, wUname,
   wEnv, wPrintenv, wType, wFile, wStat, wDf, wDu, wFree, wUptime, wGrep, wFind,
   wPs, wTop, wHtop, wLocate, wTree]

/-- Test of `ALLOWLIST_RE` (anchored, case-sensitive). -/
def ALLOWLIST_RE_test (s : List Char) : Bool := rxMatches (rxWordAlt ALLOWLIST_WORDS) s

/-- Test of `SAFE_PIPE_RE` (anchored, case-sensitive). -/
def SAFE_PIPE_RE_test (s : List Char) : Bool := rxMatches (rxWordAlt SAFE_PIPE_WORDS) s

/-- Test of `READ_ONLY_RE` (anchored, case-sensitive). -/
def READ_ONLY_RE_test (s : List Char) : Bool := rxMatches (rxWordAlt READ_ONLY_WORDS) s

/-- Matcher of `READ_ONLY_PREFIX_RE` (autonomy.ts line 299). -/
def READ_ONLY_PREFIX_RE_core : Rx :=
  rxSeq (rxAlts
    [rxSeq (rxLit wGit) (rxSeq rxWsPlus
       (rxAlts [rxLit wStatus, rxLit wLog, rxLit wDiff, rxLit wBranch, rxLit wShow])),
     rxSeq (rxLit wNpm) (rxSeq rxWsPlus (rxAlts [rxLit wList, rxLit wLs])),
     rxSeq (rxLit wYarn) (rxSeq rxWsPlus (rxLit wList)),
     rxSeq (rxLit wPnpm) (rxSeq rxWsPlus (rxLit wList)),
     rxSeq (rxLit wNode) (rxSeq rxWsPlus (rxLit wDashDashVersion)),
     rxSeq (rxLit wNpm) (rxSeq rxWsPlus (rxLit wDashDashVersion)),
     rxSeq (rxLit wPython) (rxSeq rxWsPlus (rxLit wDashDashVersion))])
    rxWordBoundary

def READ_ONLY_PREFIX_RE_test (s : List Char) : Bool := rxMatches READ_ONLY_PREFIX_RE_core s

/-- Matcher of `MEDIUM_COMMAND_RE` (autonomy.ts line 302, `i` flag). -/
def MEDIUM_COMMAND_RE_core : Rx :=
  rxSeq (rxAlts
    [rxSeq (rxLitCI wNpm) (rxSeq rxWsPlus
       (rxAlts [rxLitCI wInstall, rxLitCI wCi, rxLitCI wTest, rxLitCI wRun,
                rxLitCI wBuild, rxLitCI wStart])),
     rxSeq (rxLitCI wYarn) (rxSeq rxWsPlus
       (rxAlts [rxLitCI wInstall, rxLitCI wAdd, rxLitCI wTest, rxLitCI wBuild, rxLitCI wStart])),
     rxSeq (rxLitCI wPnpm) (rxSeq rxWsPlus
       (rxAlts [rxLitCI wInstall, rxLitCI wAdd, rxLitCI wTest, rxLitCI wBuild, rxLitCI wStart])),
     rxSeq (rxLitCI wPip) (rxSeq rxWsPlus (rxLitCI wInstall)),
     rxSeq (rxLitCI wCargo) (rxSeq rxWsPlus
       (rxAlts [rxLitCI wBuild, rxLitCI wTest, rxLitCI wRun])),
     rxSeq (rxLitCI wGo) (rxSeq rxWsPlus
       (rxAlts [rxLitCI wBuild, rxLitCI wTest, rxLitCI wRun, rxLitCI wGet])),
     rxLitCI wMake,
     rxSeq (rxLitCI wGit) (rxSeq rxWsPlus
       (rxAlts [rxLitCI wAdd, rxLitCI wCommit, rxLitCI wStash, rxLitCI wCheckout,
                rxLitCI wBranch, rxLitCI wMerge, rxLitCI wRebase, rxLitCI wFetch, rxLitCI wPull])),
     rxLitCI wMkdir,
     rxLitCI wTouch])
    rxWordBoundary

def MEDIUM_COMMAND_RE_test (s : List Char) : Bool := rxMatches MEDIUM_COMMAND_RE_core s

/-! ## The denylist (COMMAND_DENYLIST_PATTERNS, autonomy.ts lines 87-101)

Each pattern is unanchored and case-insensitive; `rxSearch` scans every start
position with the boundary condition demanded by the leading `\b`. -/

def denyRmRecursive (s : List Char) : Bool :=
  rxSearch boundaryBeforeWord
    (rxSeq (rxLitCI wRm) (rxSeq rxWsPlus
      (rxAlts [rxSeq (rxLitCI wDashR) (rxOpt (rxLitCI wF)),
               rxLitCI wDashDashRecursive, rxLitCI wDashDashForce]))) s

def denySudo (s : List Char) : Bool :=
  rxSearch boundaryBeforeWord (rxSeq (rxLitCI wSudo) rxWordBoundary) s

def denyChmod777 (s : List Char) : Bool :=
  rxSearch boundaryBeforeWord
    (rxSeq (rxAlts [rxLitCI wChmod, rxLitCI wChown])
      (rxSeq rxWordBoundary (rxSeq rxDotStar (rxLit wSevens)))) s

def denyMkfs (s : List Char) : Bool :=
  rxSearch boundaryBeforeWord (rxSeq (rxLitCI wMkfs) rxWordBoundary) s

def denyDdOf (s : List Char) : Bool :=
  rxSearch boundaryBeforeWord
    (rxSeq (rxLitCI wDd) (rxSeq rxWsPlus (rxSeq rxDotStar (rxLitCI wOfEq)))) s

def denyShutdown (s : List Char) : Bool :=
  rxSearch boundaryBeforeWord
    (rxSeq (rxAlts [rxLitCI wShutdown, rxLitCI wReboot, rxLitCI wHalt, rxLitCI wPoweroff])
      rxWordBoundary) s

def denyDevSd (s : List Char) : Bool :=
  rxSearch boundaryBeforeNonWord
    (rxSeq (rxLit wGt) (rxSeq rxWsStar (rxLitCI wDevSd))) s

def denyRmTrailingSlash (s : List Char) : Bool :=
  rxSearch boundaryBeforeWord
    (rxSeq (rxLitCI wRm) (rxSeq rxWsPlus (rxSeq rxDotStar
      (rxSeq (rxLit wSlash) (rxSeq rxWsStar rxEndAnchor))))) s

def denyGitPushForce (s : List Char) : Bool :=
  rxSearch boundaryBeforeWord
    (rxSeq (rxLitCI wGit) (rxSeq rxWsPlus (rxSeq (rxLitCI wPush)
      (rxSeq rxWsPlus (rxSeq rxDotStar (rxLitCI wDashDashForce)))))) s

def denyGitResetHard (s : List Char) : Bool :=
  rxSearch boundaryBeforeWord
    (rxSeq (rxLitCI wGit) (rxSeq rxWsPlus (rxSeq (rxLitCI wReset)
      (rxSeq rxWsPlus (rxLitCI wDashDashHard))))) s

def denyNpmPublish (s : List Char) : Bool :=
  rxSearch boundaryBeforeWord
    (rxSeq (rxLitCI wNpm) (rxSeq rxWsPlus (rxLitCI wPublish))) s

def denyCurlSh (s : List Char) : Bool :=
  rxSearch boundaryBeforeWord
    (rxSeq (rxLitCI wCurl) (rxSeq rxWsPlus (rxSeq rxDotStar
      (rxSeq (rxLit wPipe) (rxSeq rxWsStar (rxSeq (rxOpt (rxLitCI wBa)) (rxLitCI wSh))))))) s

def denyWgetSh (s : List Char) : Bool :=
  rxSearch boundaryBeforeWord
    (rxSeq (rxLitCI wWget) (rxSeq rxWsPlus (rxSeq rxDotStar
      (rxSeq (rxLit wPipe) (rxSeq rxWsStar (rxSeq (rxOpt (rxLitCI wBa)) (rxLitCI wSh))))))) s

/-- Test `COMMAND_DENYLIST_PATTERNS.some(p => p.test(command))` (autonomy.ts 336-338). -/
def matchesDenylist (command : List Char) : Bool :=
  denyRmRecursive command || denySudo command || denyChmod777 command ||
  denyMkfs command || denyDdOf command || denyShutdown command ||
  denyDevSd command || denyRmTrailingSlash command || denyGitPushForce command ||
  denyGitResetHard command || denyNpmPublish command || denyCurlSh command ||
  denyWgetSh command

/-! ## Command classifiers (autonomy.ts lines 307-371) -/

/-- Embeds `isAllowedPipeline` (autonomy.ts 307-323): an allowlisted first segment piped
into at most two safe formatting targets. -/
def isAllowedPipeline (command : List Char) : Bool :=
  if !(command.contains '|') then false
  else
    let segments := splitOnChar '|' command
    if segments.length < 2 || segments.length > 3 then false
    else
      match segments with
      | [] => false
      | first :: rest =>
        ALLOWLIST_RE_test (jsTrim first) &&
        rest.all (fun seg => SAFE_PIPE_RE_test (jsTrim seg))

/-- Embeds `isInAllowlist` (autonomy.ts 325-334). -/
def isInAllowlist (command : List Char) : Bool :=
  if hasDangerousChaining command then false
  else
    let trimmed := jsTrim command
    if trimmed.contains '|' then isAllowedPipeline trimmed
    else ALLOWLIST_RE_test trimmed

/-- Embeds `isReadOnlyCommand` (autonomy.ts 340-349). -/
def isReadOnlyCommand (command : List Char) : Bool :=
  if hasDangerousChaining command then false
  else
    let trimmed := jsTrim command
    if trimmed.contains '|' && isAllowedPipeline trimmed then true
    else READ_ONLY_RE_test trimmed || READ_ONLY_PREFIX_RE_test trimmed

/-- Embeds `isMediumCommand` (autonomy.ts 351-354). -/
def isMediumCommand (command : List Char) : Bool :=
  if hasDangerousChaining command then false
  else MEDIUM_COMMAND_RE_test (jsTrim command)

/-! ## Autonomy levels and the permission gate (autonomy.ts lines 26-77, 470-627) -/

inductive AutonomyLevel where
  | off
  | low
  | medium
  | high
deriving DecidableEq

structure AutonomyConfig where
  allowReadOnlyBash : Bool
  allowSafeWrites : Bool
  allowMediumBash : Bool
  allowAllBash : Bool
  allowProtectedPaths : Bool
deriving DecidableEq

/-- The table `AUTONOMY_CONFIGS` (autonomy.ts lines 38-75). -/
def AUTONOMY_CONFIGS : AutonomyLevel → AutonomyConfig
  | .off => ⟨true, false, false, false, false⟩
  | .low => ⟨true, true, false, false, false⟩
  | .medium => ⟨true, true, true, false, false⟩
  | .high => ⟨true, true, true, true, true⟩

def AUTONOMY_ORDER : List AutonomyLevel := [.off, .low, .medium, .high]

/-- Embeds `getLevelForBashCommand` (autonomy.ts 367-371). -/
def getLevelForBashCommand (command : List Char) : AutonomyLevel :=
  if isReadOnlyCommand command then .off
  else if isMediumCommand command then .medium
  else .high

/-- Embeds `getLevelForWrite` (autonomy.ts 373-375). -/
def getLevelForWrite (withinProject : Bool) : AutonomyLevel :=
  if withinProject then .low else .high

def levelLabel : AutonomyLevel → List Char
  | .off => ['O', 'f', 'f']
  | .low => ['L', 'o', 'w']
  | .medium => ['M', 'e', 'd', 'i', 'u', 'm']
  | .high => ['H', 'i', 'g', 'h']

def optAllowOnce : List Char := ['A', 'l', 'l', 'o', 'w', ' ', 'o', 'n', 'c', 'e']

def optAlwaysBlock : List Char := ['A', 'l', 'w', 'a', 'y', 's', ' ', 'b', 'l', 'o', 'c', 'k']

def optBlock : List Char := ['B', 'l', 'o', 'c', 'k']

/-- Choice list of the dangerous-command prompt (autonomy.ts 493-496). -/
def dangerousPromptOptions : List (List Char) := [optAllowOnce, optAlwaysBlock, optBlock]

def optAllowAll (l : AutonomyLevel) : List Char :=
  ['A', 'l', 'l', 'o', 'w', ' ', 'a', 'l', 'l', ' ', '('] ++ levelLabel l ++ [')']

/-- Choice list of the ordinary permission prompt (autonomy.ts 522-526). -/
def permissionPromptOptions (required current : AutonomyLevel) : List (List Char) :=
  let opts := [optAllowOnce]
  let opts :=
    if AUTONOMY_ORDER.indexOf required > AUTONOMY_ORDER.indexOf current
    then opts ++ [optAllowAll required] else opts
  opts ++ [optBlock]

/-- Choice list of the protected-path prompt (autonomy.ts 569-572). -/
def protectedPromptOptions : List (List Char) := [optAllowOnce, optAllowAll .high, optBlock]

/-- Outcome of the bash tool_call gate, up to the point where either the call is
decided or a UI prompt is opened (autonomy.ts 470-549). -/
inductive BashDecision where
  | autoAllow
  | blockPrevDenied
  | blockDangerousNoUI
  | promptDangerous (options : List (List Char))
  | blockNoUI
  | promptPermission (options : List (List Char))
deriving DecidableEq

/-- Body of the bash gate after the initial `.trim()` of the tool input
(autonomy.ts 474-548).  `sessionDeniedCommands` models the session set of
always-blocked commands. -/
def bashGateCore (command : List Char) (level : AutonomyLevel) (hasUI : Bool)
    (sessionDeniedCommands : List (List Char)) : BashDecision :=
  let config := AUTONOMY_CONFIGS level
  if isInAllowlist command then .autoAllow
  else if matchesDenylist command then
    if sessionDeniedCommands.contains command then .blockPrevDenied
    else if !hasUI then .blockDangerousNoUI
    else .promptDangerous dangerousPromptOptions
  else if config.allowAllBash then .autoAllow
  else if config.allowMediumBash && isMediumCommand command then .autoAllow
  else if config.allowReadOnlyBash && isReadOnlyCommand command then .autoAllow
  else if !hasUI then .blockNoUI
  else .promptPermission (permissionPromptOptions (getLevelForBashCommand command) level)

/-- The bash tool_call handler: trims the command and runs the gate
(autonomy.ts 473). -/
def bashToolCall (input : List Char) (level : AutonomyLevel) (hasUI : Bool)
    (sessionDeniedCommands : List (List Char)) : BashDecision :=
  bashGateCore (jsTrim input) level hasUI sessionDeniedCommands

/-- Outcome of the write/edit tool_call gate (autonomy.ts 554-626). -/
inductive WriteDecision where
  | autoAllow
  | blockNoUI
  | promptProtected (options : List (List Char))
  | promptWrite (options : List (List Char))
deriving DecidableEq

/-- The write/edit gate.  `isProt` is the value of `isProtectedPath(filePath)`
and `withinProject` the value of `isWithinProjectDir(filePath, cwd)`; both are
computed by platform path/filesystem functions in the source and enter the gate
only as booleans (autonomy.ts 561, 587). -/
def writeGateCore (isProt withinProject : Bool) (level : AutonomyLevel) (hasUI : Bool) :
    WriteDecision :=
  let config := AUTONOMY_CONFIGS level
  if isProt then
    if config.allowProtectedPaths then .autoAllow
    else if !hasUI then .blockNoUI
    else .promptProtected protectedPromptOptions
  else if config.allowSafeWrites && withinProject then .autoAllow
  else if !hasUI then .blockNoUI
  else .promptWrite (permissionPromptOptions (getLevelForWrite withinProject) level)

def bashIsPrompt : BashDecision → Bool
  | .promptDangerous _ => true
  | .promptPermission _ => true
  | _ => false

def bashIsAutoAllow : BashDecision → Bool
  | .autoAllow => true
  | _ => false

def writeIsPrompt : WriteDecision → Bool
  | .promptProtected _ => true
  | .promptWrite _ => true
  | _ => false

def writeIsAutoAllow : WriteDecision → Bool
  | .autoAllow => true
  | _ => false

/-! ## Concrete command strings used in the theorems -/

def cmdLsWc : List Char := ['l', 's', ' ', '|', ' ', 'w', 'c', ' ', '-', 'l']

def cmdLsRm : List Char := ['l', 's', ' ', '|', ' ', 'r', 'm', ' ', '-', 'r', 'f', ' ', '/']

def cmdEchoSudo : List Char := ['e', 'c', 'h', 'o', ' ', 's', 'u', 'd', 'o']

def cmdRmRf : List Char := ['r', 'm', ' ', '-', 'r', 'f', ' ', '/']

def cmdChain : List Char := ['f', 'o', 'o', ' ', '&', '&', ' ', 'b', 'a', 'r']

/-! ## Claim C4 -/

/-- C4: the pipeline `"ls | wc -l"` classifies as read-only via the
safe-pipeline grammar, while `"ls | rm -rf /"` is rejected by
`isAllowedPipeline` (because `rm` is not a safe pipe target), is not accepted
into the allowlist, and `isReadOnlyCommand` for it falls through to the
standard pattern tests `READ_ONLY_RE` / `READ_ONLY_PREFIX_RE`. -/
theorem spec_c4_pipeline_classification :
    isReadOnlyCommand cmdLsWc = true ∧
    isAllowedPipeline cmdLsRm = false ∧
    isInAllowlist cmdLsRm = false ∧
    isReadOnlyCommand cmdLsRm =
      (READ_ONLY_RE_test (jsTrim cmdLsRm) || READ_ONLY_PREFIX_RE_test (jsTrim cmdLsRm)) := by
  refine ⟨by decide, by decide, by decide, by decide⟩

/-! ## Claim C1 -/

/-- C1 counterexample: `"echo sudo"` matches the denylist pattern `\bsudo\b`
yet the gate auto-allows it without any prompt at every tier, because the
allowlist check (autonomy.ts 477) runs before the denylist check
(autonomy.ts 482). -/
theorem spec_c1_counterexample :
    matchesDenylist (jsTrim cmdEchoSudo) = true ∧
    bashToolCall cmdEchoSudo .high true [] = .autoAllow ∧
    bashToolCall cmdEchoSudo .off true [] = .autoAllow := by
  refine ⟨by decide, by decide, by decide⟩

/-- C1 (amended): for every bash command that matches the denylist and is not
accepted by the allowlist, the gate never auto-allows the command at any tier,
including `high`: the only outcomes are the dangerous prompt with the
allow once / always block / block choices, or a block. -/
theorem spec_c1_denylist_always_prompts (input : List Char) (level : AutonomyLevel)
    (hasUI : Bool) (denied : List (List Char))
    (hdeny : matchesDenylist (jsTrim input) = true)
    (hallow : isInAllowlist (jsTrim input) = false) :
    bashToolCall input level hasUI denied = .promptDangerous dangerousPromptOptions ∨
    bashToolCall input level hasUI denied = .blockPrevDenied ∨
    bashToolCall input level hasUI denied = .blockDangerousNoUI := by
  unfold bashToolCall bashGateCore
  by_cases hc : jsTrim input ∈ denied
  · cases hasUI <;> simp [hallow, hdeny, hc]
  · cases hasUI <;> simp [hallow, hdeny, hc]

/-- C1 witness: `"rm -rf /"` is denylisted, not allowlisted, and the gate at
the maximal tier with a UI opens the dangerous prompt. -/
theorem spec_c1_witness :
    matchesDenylist (jsTrim cmdRmRf) = true ∧
    isInAllowlist (jsTrim cmdRmRf) = false ∧
    bashToolCall cmdRmRf .high true [] = .promptDangerous dangerousPromptOptions := by
  refine ⟨by decide, by decide, ?_⟩
  rcases spec_c1_denylist_always_prompts cmdRmRf .high true [] (by decide) (by decide) with
    h | h | h
  · exact h
  · exact absurd h (by decide)
  · exact absurd h (by decide)

/-! ## Claim C8 -/

/-- C8: every command containing a backtick, two ampersands, two pipes,
dollar-paren, an ampersand, or an unescaped semicolon fails all three
classifiers, is assigned the `high` level, and is never auto-allowed by the
gate at any tier below `high`. -/
theorem spec_c8_chaining_never_autoallowed (command : List Char)
    (h : hasDangerousChaining command = true) :
    isInAllowlist command = false ∧
    isReadOnlyCommand command = false ∧
    isMediumCommand command = false ∧
    getLevelForBashCommand command = .high ∧
    (∀ level : AutonomyLevel, level ≠ .high → ∀ (hasUI : Bool) (denied : List (List Char)),
      bashToolCall command level hasUI denied ≠ .autoAllow) := by
  have h1 : isInAllowlist command = false := by simp [isInAllowlist, h]
  have h2 : isReadOnlyCommand command = false := by simp [isReadOnlyCommand, h]
  have h3 : isMediumCommand command = false := by simp [isMediumCommand, h]
  have h4 : getLevelForBashCommand command = .high := by
    simp [getLevelForBashCommand, h2, h3]
  refine ⟨h1, h2, h3, h4, ?_⟩
  intro level hlvl hasUI denied
  have ht : hasDangerousChaining (jsTrim command) = true := by
    rw [hasDangerousChaining_jsTrim]
    exact h
  have h1t : isInAllowlist (jsTrim command) = false := by simp [isInAllowlist, ht]
  have h2t : isReadOnlyCommand (jsTrim command) = false := by simp [isReadOnlyCommand, ht]
  have h3t : isMediumCommand (jsTrim command) = false := by simp [isMediumCommand, ht]
  have hall : (AUTONOMY_CONFIGS level).allowAllBash = false := by
    cases level
    · rfl
    · rfl
    · rfl
    · exact absurd rfl hlvl
  unfold bashToolCall bashGateCore
  by_cases hd : matchesDenylist (jsTrim command) = true
  · by_cases hc : jsTrim command ∈ denied
    · simp [h1t, hd, hc]
    · cases hasUI <;> simp [h1t, hd, hc]
  · cases hasUI <;> simp [h1t, h2t, h3t, hd, hall]

/-- C8 witness: `"foo && bar"` contains dangerous chaining, gets the `high`
level, and is not auto-allowed at the `medium` tier. -/
theorem spec_c8_witness :
    hasDangerousChaining cmdChain = true ∧
    getLevelForBashCommand cmdChain = .high ∧
    bashToolCall cmdChain .medium true [] ≠ .autoAllow :=
  ⟨by decide,
   (spec_c8_chaining_never_autoallowed cmdChain (by decide)).2.2.2.1,
   (spec_c8_chaining_never_autoallowed cmdChain (by decide)).2.2.2.2 .medium
     (by decide) true []⟩

/-! ## Claim C9 -/

/-- C9: the gate is fail-closed without a UI.  With `hasUI = false` neither the
bash gate nor the write/edit gate ever opens a prompt, and the set of
auto-allowed calls is exactly the same as with a UI: a missing UI never turns a
would-be prompt into a silent allow, it yields a block. -/
theorem spec_c9_fail_closed_without_ui (command : List Char) (level : AutonomyLevel)
    (denied : List (List Char)) (isProt withinProject : Bool) :
    bashIsPrompt (bashToolCall command level false denied) = false ∧
    bashIsAutoAllow (bashToolCall command level false denied)
      = bashIsAutoAllow (bashToolCall command level true denied) ∧
    writeIsPrompt (writeGateCore isProt withinProject level false) = false ∧
    writeIsAutoAllow (writeGateCore isProt withinProject level false)
      = writeIsAutoAllow (writeGateCore isProt withinProject level true) := by
  unfold bashToolCall bashGateCore writeGateCore
  refine ⟨?_, ?_, ?_, ?_⟩
  · by_cases hA : isInAllowlist (jsTrim command) = true
    · simp [hA, bashIsPrompt]
    · by_cases hD : matchesDenylist (jsTrim command) = true
      · by_cases hC : jsTrim command ∈ denied
        · simp [hA, hD, hC, bashIsPrompt]
        · simp [hA, hD, hC, bashIsPrompt]
      · by_cases h4 : (AUTONOMY_CONFIGS level).allowAllBash = true
        · simp [hA, hD, h4, bashIsPrompt]
        · by_cases h5 : ((AUTONOMY_CONFIGS level).allowMediumBash
              && isMediumCommand (jsTrim command)) = true
          · simp [hA, hD, h4, h5, bashIsPrompt]
          · by_cases h6 : ((AUTONOMY_CONFIGS level).allowReadOnlyBash
                && isReadOnlyCommand (jsTrim command)) = true
            · simp [hA, hD, h4, h5, h6, bashIsPrompt]
            · simp [hA, hD, h4, h5, h6, bashIsPrompt]
  · by_cases hA : isInAllowlist (jsTrim command) = true
    · simp [hA]
    · by_cases hD : matchesDenylist (jsTrim command) = true
      · by_cases hC : jsTrim command ∈ denied
        · simp [hA, hD, hC]
        · simp [hA, hD, hC, bashIsAutoAllow]
      · by_cases h4 : (AUTONOMY_CONFIGS level).allowAllBash = true
        · simp [hA, hD, h4]
        · by_cases h5 : ((AUTONOMY_CONFIGS level).allowMediumBash
              && isMediumCommand (jsTrim command)) = true
          · simp [hA, hD, h4, h5]
          · by_cases h6 : ((AUTONOMY_CONFIGS level).allowReadOnlyBash
                && isReadOnlyCommand (jsTrim command)) = true
            · simp [hA, hD, h4, h5, h6]
            · simp [hA, hD, h4, h5, h6, bashIsAutoAllow]
  · by_cases hP : isProt = true
    · by_cases hp2 : (AUTONOMY_CONFIGS level).allowProtectedPaths = true
      · simp [hP, hp2, writeIsPrompt]
      · simp [hP, hp2, writeIsPrompt]
    · by_cases hs : ((AUTONOMY_CONFIGS level).allowSafeWrites && withinProject) = true
      · simp [hP, hs, writeIsPrompt]
      · simp [hP, hs, writeIsPrompt]
  · by_cases hP : isProt = true
    · by_cases hp2 : (AUTONOMY_CONFIGS level).allowProtectedPaths = true
      · simp [hP, hp2]
      · simp [hP, hp2, writeIsAutoAllow]
    · by_cases hs : ((AUTONOMY_CONFIGS level).allowSafeWrites && withinProject) = true
      · simp [hP, hs]
      · simp [hP, hs, writeIsAutoAllow]

/-! ## Checkpoint data and the commit-message encoding (src/unnamed/part_003)

`CheckpointData` mirrors the interface at part_003 lines 32-40; `turnIndex` is
`Option Int` because `loadCheckpointFromRef` stores the result of `parseInt`,
whose `NaN` outcome is modelled by `none`.  `createCheckpoint` builds the
commit message of part_003 lines 152-160; `loadCheckpointFromRef` parses it
with the first-match-per-line regexes of lines 222-232.  The JavaScript `Date`
conversions (`toISOString` on create, `new Date(created).getTime()` on load)
are platform functions and enter the model as explicit parameters. -/

structure CheckpointData where
  id : List Char
  turnIndex : Option Int
  sessionId : List Char
  headSha : List Char
  indexTreeSha : List Char
  worktreeTreeSha : List Char
  timestamp : Int
deriving DecidableEq

/-- The unborn-HEAD sentinel `"0".repeat(40)` (part_003 line 29). -/
def ZEROS : List Char := List.replicate 40 '0'

def kwCheckpointColon : List Char := ['c', 'h', 'e', 'c', 'k', 'p', 'o', 'i', 'n', 't', ':']

def kwSessionId : List Char := ['s', 'e', 's', 's', 'i', 'o', 'n', 'I', 'd']

def kwTurn : List Char := ['t', 'u', 'r', 'n']

def kwHead : List Char := ['h', 'e', 'a', 'd']

def kwIndexTree : List Char := ['i', 'n', 'd', 'e', 'x', '-', 't', 'r', 'e', 'e']

def kwWorktreeTree : List Char :=
  ['w', 'o', 'r', 'k', 't', 'r', 'e', 'e', '-', 't', 'r', 'e', 'e']

def kwCreated : List Char := ['c', 'r', 'e', 'a', 't', 'e', 'd']

/-- The seven metadata lines of the checkpoint commit message
(part_003 lines 152-160). -/
def messageLines (id sessionId : List Char) (turnIndex : Nat)
    (headSha indexTreeSha worktreeTreeSha isoTimestamp : List Char) :
    List (List Char) :=
  [kwCheckpointColon ++ id,
   kwSessionId ++ ' ' :: sessionId,
   kwTurn ++ ' ' :: natRepr turnIndex,
   kwHead ++ ' ' :: headSha,
   kwIndexTree ++ ' ' :: indexTreeSha,
   kwWorktreeTree ++ ' ' :: worktreeTreeSha,
   kwCreated ++ ' ' :: isoTimestamp]

/-- Join `[...].join("\n")` of the metadata lines (part_003 line 160). -/
def checkpointMessage (id sessionId : List Char) (turnIndex : Nat)
    (headSha indexTreeSha worktreeTreeSha isoTimestamp : List Char) : List Char :=
  joinLines (messageLines id sessionId turnIndex headSha indexTreeSha
    worktreeTreeSha isoTimestamp)

/-- The `CheckpointData` value returned by `createCheckpoint`
(part_003 lines 180-188). -/
def createdCheckpointData (id sessionId : List Char) (turnIndex : Nat)
    (headSha indexTreeSha worktreeTreeSha : List Char) (timestamp : Int) :
    CheckpointData :=
  { id := id, turnIndex := some (turnIndex : Int), sessionId := sessionId,
    headSha := headSha, indexTreeSha := indexTreeSha,
    worktreeTreeSha := worktreeTreeSha, timestamp := timestamp }

/-- One step of the commit-message field lookup: the regex
`^<key> (.+)$` applied to a single line, value trimmed (part_003 222-223). -/
def lineValue (key : List Char) (l : List Char) : Option (List Char) :=
  match dropLit (key ++ [' ']) l with
  | some rest => if rest.isEmpty then none else some (jsTrim rest)
  | none => none

/-- First match of `^<key> (.+)$` over the lines of the message (`m` flag
scans lines in order). -/
def getField (key : List Char) (lines : List (List Char)) : Option (List Char) :=
  lines.findSome? (lineValue key)

/-- JavaScript truthiness of the optional field value: `undefined` and the
empty string are falsy. -/
def truthyStr : Option (List Char) → Bool
  | none => false
  | some s => !s.isEmpty

/-- Embeds `loadCheckpointFromRef`, parsing part (part_003 lines 220-242): extract the
fields, return `null` when a required field is missing or empty, and convert
`turn` with `parseInt` and `created` with `new Date(...).getTime()`
(modelled by `dateParse`; a missing `created` yields timestamp 0). -/
def parseCheckpointMessage (dateParse : List Char → Int) (refName msg : List Char) :
    Option CheckpointData :=
  let lines := splitOnChar '\n' msg
  let sessionId := getField kwSessionId lines
  let turn := getField kwTurn lines
  let headV := getField kwHead lines
  let indexV := getField kwIndexTree lines
  let worktreeV := getField kwWorktreeTree lines
  let createdV := getField kwCreated lines
  if !truthyStr sessionId || !truthyStr turn || !truthyStr headV ||
     !truthyStr indexV || !truthyStr worktreeV then none
  else some
    { id := refName,
      turnIndex := jsParseInt (turn.getD []),
      sessionId := sessionId.getD [],
      headSha := headV.getD [],
      indexTreeSha := indexV.getD [],
      worktreeTreeSha := worktreeV.getD [],
      timestamp := if truthyStr createdV then dateParse (createdV.getD []) else 0 }

theorem dropLit_self_append (w t : List Char) : dropLit w (w ++ t) = some t := by
  induction w with
  | nil => rfl
  | cons a as ih => simp [dropLit, ih]

theorem lineValue_self (key v : List Char) (hv : v ≠ []) :
    lineValue key (key ++ ' ' :: v) = some (jsTrim v) := by
  have hd := dropLit_self_append (key ++ [' ']) v
  rw [List.append_assoc] at hd
  simp only [List.singleton_append] at hd
  simp [lineValue, hd, hv]

theorem no_nl_of_no_ws (v : List Char) (h : ∀ c ∈ v, isWsChar c = false) : '\n' ∉ v := by
  intro hm
  exact absurd (h '\n' hm) (by decide)

theorem no_nl_line (kw v : List Char) (hkw : '\n' ∉ kw) (hv : '\n' ∉ v) :
    '\n' ∉ kw ++ ' ' :: v := by
  intro hmem
  rcases List.mem_append.mp hmem with hx | hx
  · exact hkw hx
  · rcases List.mem_cons.mp hx with hx | hx
    · exact absurd hx (by decide)
    · exact hv hx

/-! ## Claim C3 -/

/-- C3 (amended): the line-oriented commit-message encoding round-trips
without loss for every checkpoint created by `createCheckpoint` with a
non-empty session id — the counterexample below shows the restriction is
necessary, because the reachable before-restore call with `sessionId = ""`
writes a `sessionId ` line that `^sessionId (.+)$` cannot match, so the load
returns `null`.  With a well-formed session id and git object names
(non-empty, whitespace-free, as `isSafeId` ids and git shas are) and an id
without line breaks, parsing the written message back with
`loadCheckpointFromRef`'s field regexes reproduces `id`, `turnIndex`,
`sessionId`, `headSha`, `indexTreeSha`, `worktreeTreeSha` and `timestamp`
exactly.  `dateFmt`/`dateParse` model the platform pair
`Date.prototype.toISOString` / `new Date(s).getTime()`, assumed mutually
inverse on the created timestamp. -/
theorem spec_c3_roundtrip (dateFmt : Int → List Char) (dateParse : List Char → Int)
    (id sid : List Char) (n : Nat) (hsha isha wsha : List Char) (ts : Int)
    (hid : ∀ c ∈ id, c ≠ '\n')
    (hsid : sid ≠ []) (hsidw : ∀ c ∈ sid, isWsChar c = false)
    (hh : hsha ≠ []) (hhw : ∀ c ∈ hsha, isWsChar c = false)
    (hi : isha ≠ []) (hiw : ∀ c ∈ isha, isWsChar c = false)
    (hw : wsha ≠ []) (hww : ∀ c ∈ wsha, isWsChar c = false)
    (hiso : dateFmt ts ≠ []) (hisow : ∀ c ∈ dateFmt ts, isWsChar c = false)
    (hdp : dateParse (dateFmt ts) = ts) :
    parseCheckpointMessage dateParse id
      (checkpointMessage id sid n hsha isha wsha (dateFmt ts)) =
      some (createdCheckpointData id sid n hsha isha wsha ts) := by
  have hid' : '\n' ∉ id := fun hm => hid '\n' hm rfl
  have hturnw : ∀ c ∈ natRepr n, isWsChar c = false := fun c hc =>
    digit_not_ws c (natRepr_all_digits n c hc)
  have hnl : ∀ l ∈ messageLines id sid n hsha isha wsha (dateFmt ts), '\n' ∉ l := by
    intro l hl
    simp only [messageLines, List.mem_cons, List.not_mem_nil, or_false] at hl
    rcases hl with rfl | rfl | rfl | rfl | rfl | rfl | rfl
    · intro hmem
      rcases List.mem_append.mp hmem with hx | hx
      · exact absurd hx (by decide)
      · exact hid' hx
    · exact no_nl_line _ _ (by decide) (no_nl_of_no_ws sid hsidw)
    · exact no_nl_line _ _ (by decide) (no_nl_of_no_ws (natRepr n) hturnw)
    · exact no_nl_line _ _ (by decide) (no_nl_of_no_ws hsha hhw)
    · exact no_nl_line _ _ (by decide) (no_nl_of_no_ws isha hiw)
    · exact no_nl_line _ _ (by decide) (no_nl_of_no_ws wsha hww)
    · exact no_nl_line _ _ (by decide) (no_nl_of_no_ws (dateFmt ts) hisow)
  have hsplit : splitOnChar '\n'
      (checkpointMessage id sid n hsha isha wsha (dateFmt ts)) =
      messageLines id sid n hsha isha wsha (dateFmt ts) :=
    splitOnChar_joinLines _ (by simp [messageLines]) hnl
  have g1 : getField kwSessionId (messageLines id sid n hsha isha wsha (dateFmt ts)) =
      some (jsTrim sid) := by
    simp [getField, messageLines, lineValue, dropLit, kwCheckpointColon, kwSessionId, hsid]
  have g2 : getField kwTurn (messageLines id sid n hsha isha wsha (dateFmt ts)) =
      some (jsTrim (natRepr n)) := by
    simp [getField, messageLines, lineValue, dropLit, kwCheckpointColon, kwSessionId,
      kwTurn, natRepr_ne_nil n]
  have g3 : getField kwHead (messageLines id sid n hsha isha wsha (dateFmt ts)) =
      some (jsTrim hsha) := by
    simp [getField, messageLines, lineValue, dropLit, kwCheckpointColon, kwSessionId,
      kwTurn, kwHead, hh]
  have g4 : getField kwIndexTree (messageLines id sid n hsha isha wsha (dateFmt ts)) =
      some (jsTrim isha) := by
    simp [getField, messageLines, lineValue, dropLit, kwCheckpointColon, kwSessionId,
      kwTurn, kwHead, kwIndexTree, hi]
  have g5 : getField kwWorktreeTree (messageLines id sid n hsha isha wsha (dateFmt ts)) =
      some (jsTrim wsha) := by
    simp [getField, messageLines, lineValue, dropLit, kwCheckpointColon, kwSessionId,
      kwTurn, kwHead, kwIndexTree, kwWorktreeTree, hw]
  have g6 : getField kwCreated (messageLines id sid n hsha isha wsha (dateFmt ts)) =
      some (jsTrim (dateFmt ts)) := by
    simp [getField, messageLines, lineValue, dropLit, kwCheckpointColon, kwSessionId,
      kwTurn, kwHead, kwIndexTree, kwWorktreeTree, kwCreated, hiso]
  unfold parseCheckpointMessage checkpointMessage
  simp only [show joinLines (messageLines id sid n hsha isha wsha (dateFmt ts)) =
    joinLines (messageLines id sid n hsha isha wsha (dateFmt ts)) from rfl]
  rw [show splitOnChar '\n' (joinLines (messageLines id sid n hsha isha wsha (dateFmt ts))) =
    messageLines id sid n hsha isha wsha (dateFmt ts) from hsplit]
  rw [g1, g2, g3, g4, g5, g6]
  rw [jsTrim_of_all_not_ws sid hsidw, jsTrim_of_all_not_ws (natRepr n) hturnw,
    jsTrim_of_all_not_ws hsha hhw, jsTrim_of_all_not_ws isha hiw,
    jsTrim_of_all_not_ws wsha hww, jsTrim_of_all_not_ws (dateFmt ts) hisow]
  simp [truthyStr, hsid, hh, hi, hw, hiso, natRepr_ne_nil n, jsParseInt_natRepr n,
    hdp, createdCheckpointData]

/-- C3 witness: a concrete checkpoint round-trips, with decimal rendering and
`parseInt` standing in for the platform date codec. -/
theorem spec_c3_witness :
    parseCheckpointMessage (fun s => (jsParseInt s).getD 0) ['a']
      (checkpointMessage ['a'] ['s', '1'] 7 ['d', 'e', 'a', 'd'] ['i', '1'] ['w', '1']
        ((fun t : Int => intRepr t) 1712)) =
      some (createdCheckpointData ['a'] ['s', '1'] 7 ['d', 'e', 'a', 'd'] ['i', '1']
        ['w', '1'] 1712) :=
  spec_c3_roundtrip (fun t : Int => intRepr t) (fun s => (jsParseInt s).getD 0)
    ['a'] ['s', '1'] 7 ['d', 'e', 'a', 'd'] ['i', '1'] ['w', '1'] 1712
    (by decide) (by decide) (by decide) (by decide) (by decide) (by decide)
    (by decide) (by decide) (by decide) (by decide) (by decide) (by decide)

/-! ## Claim C2: closest-checkpoint selection

Embeds the `checkpoints.reduce` of part_003 lines 484-491 ("find checkpoint
with timestamp closest to target, prefer slightly before"); `checkpoint.ts`
calls the same algorithm as `findClosestCheckpoint`.  JavaScript `reduce`
without a seed folds from the first element. -/

/-- The reduce body: `bestDiff`/`cpDiff` are `Math.abs` distances; prefer the
checkpoint at or before the target, otherwise the strictly smaller distance. -/
def closestStep (targetTs : Int) (best cp : CheckpointData) : CheckpointData :=
  if cp.timestamp ≤ targetTs ∧ targetTs < best.timestamp then cp
  else if best.timestamp ≤ targetTs ∧ targetTs < cp.timestamp then best
  else if (cp.timestamp - targetTs).natAbs < (best.timestamp - targetTs).natAbs
    then cp else best

def findClosestCheckpoint (cps : List CheckpointData) (targetTs : Int) :
    Option CheckpointData :=
  match cps with
  | [] => none
  | c :: rest => some (rest.foldl (closestStep targetTs) c)

theorem closestStep_mem (t : Int) (c d : CheckpointData) :
    closestStep t c d = c ∨ closestStep t c d = d := by
  unfold closestStep
  split_ifs <;> simp

theorem closestStep_below (t : Int) (c d : CheckpointData)
    (h : c.timestamp ≤ t ∨ d.timestamp ≤ t) :
    (closestStep t c d).timestamp ≤ t ∧
    (c.timestamp ≤ t → c.timestamp ≤ (closestStep t c d).timestamp) ∧
    (d.timestamp ≤ t → d.timestamp ≤ (closestStep t c d).timestamp) := by
  unfold closestStep
  split_ifs with h1 h2 h3 <;> refine ⟨?_, ?_, ?_⟩ <;> omega

theorem closestStep_above (t : Int) (c d : CheckpointData)
    (hc : t < c.timestamp) (hd : t < d.timestamp) :
    (closestStep t c d).timestamp ≤ c.timestamp ∧
    (closestStep t c d).timestamp ≤ d.timestamp := by
  unfold closestStep
  split_ifs with h1 h2 h3 <;> constructor <;> omega

theorem closest_foldl_spec (t : Int) (rest : List CheckpointData) :
    ∀ c : CheckpointData,
    (rest.foldl (closestStep t) c ∈ c :: rest) ∧
    ((∃ x ∈ c :: rest, x.timestamp ≤ t) →
      (rest.foldl (closestStep t) c).timestamp ≤ t ∧
      ∀ x ∈ c :: rest, x.timestamp ≤ t →
        x.timestamp ≤ (rest.foldl (closestStep t) c).timestamp) ∧
    ((∀ x ∈ c :: rest, t < x.timestamp) →
      ∀ x ∈ c :: rest, (rest.foldl (closestStep t) c).timestamp ≤ x.timestamp) := by
  induction rest with
  | nil =>
    intro c
    refine ⟨by simp, ?_, ?_⟩
    · intro hex
      obtain ⟨x, hx, hxt⟩ := hex
      simp only [List.mem_singleton] at hx
      subst hx
      exact ⟨hxt, by intro y hy hyt; simp only [List.mem_singleton] at hy; subst hy; simp⟩
    · intro _ x hx
      simp only [List.mem_singleton] at hx
      subst hx
      simp
  | cons d rest ih =>
    intro c
    simp only [List.foldl_cons]
    obtain ⟨ihm, ih2, ih3⟩ := ih (closestStep t c d)
    have hmem := closestStep_mem t c d
    refine ⟨?_, ?_, ?_⟩
    · rcases List.mem_cons.mp ihm with h | h
      · rcases hmem with hm | hm
        · rw [h, hm]; exact List.mem_cons_self _ _
        · rw [h, hm]; exact List.mem_cons_of_mem _ (List.mem_cons_self _ _)
      · exact List.mem_cons_of_mem _ (List.mem_cons_of_mem _ h)
    · intro hex
      have hex' : ∃ x ∈ closestStep t c d :: rest, x.timestamp ≤ t := by
        obtain ⟨x, hx, hxt⟩ := hex
        rcases List.mem_cons.mp hx with hx | hx
        · subst hx
          exact ⟨closestStep t x d, List.mem_cons_self _ _,
            (closestStep_below t x d (Or.inl hxt)).1⟩
        · rcases List.mem_cons.mp hx with hx | hx
          · subst hx
            exact ⟨closestStep t c x, List.mem_cons_self _ _,
              (closestStep_below t c x (Or.inr hxt)).1⟩
          · exact ⟨x, List.mem_cons_of_mem _ hx, hxt⟩
      obtain ⟨hres, hmax⟩ := ih2 hex'
      refine ⟨hres, ?_⟩
      intro x hx hxt
      rcases List.mem_cons.mp hx with hx | hx
      · subst hx
        have hstep := closestStep_below t x d (Or.inl hxt)
        exact le_trans (hstep.2.1 hxt)
          (hmax _ (List.mem_cons_self _ _) hstep.1)
      · rcases List.mem_cons.mp hx with hx | hx
        · subst hx
          have hstep := closestStep_below t c x (Or.inr hxt)
          exact le_trans (hstep.2.2 hxt)
            (hmax _ (List.mem_cons_self _ _) hstep.1)
        · exact hmax _ (List.mem_cons_of_mem _ hx) hxt
    · intro hall
      have hc : t < c.timestamp := hall c (List.mem_cons_self _ _)
      have hd : t < d.timestamp :=
        hall d (List.mem_cons_of_mem _ (List.mem_cons_self _ _))
      have hstep := closestStep_above t c d hc hd
      have hc' : t < (closestStep t c d).timestamp := by
        rcases hmem with hm | hm <;> rw [hm] <;> assumption
      have hall' : ∀ x ∈ closestStep t c d :: rest, t < x.timestamp := by
        intro x hx
        rcases List.mem_cons.mp hx with hx | hx
        · subst hx; exact hc'
        · exact hall x (List.mem_cons_of_mem _ (List.mem_cons_of_mem _ hx))
      have hmin := ih3 hall'
      intro x hx
      rcases List.mem_cons.mp hx with hx | hx
      · subst hx
        exact le_trans (hmin _ (List.mem_cons_self _ _)) hstep.1
      · rcases List.mem_cons.mp hx with hx | hx
        · subst hx
          exact le_trans (hmin _ (List.mem_cons_self _ _)) hstep.2
        · exact hmin _ (List.mem_cons_of_mem _ hx)

/-- C2: for every non-empty checkpoint list and target timestamp `t`, the
selected checkpoint is a member of the list; if any checkpoint is at or before
`t`, the selected one is at or before `t` and has maximal timestamp among
those; if all are strictly after `t`, the selected one has minimal timestamp
(equivalently, minimal absolute distance within the preferred group). -/
theorem spec_c2_closest_checkpoint (cps : List CheckpointData) (t : Int)
    (hne : cps ≠ []) :
    ∃ r, findClosestCheckpoint cps t = some r ∧ r ∈ cps ∧
      ((∃ x ∈ cps, x.timestamp ≤ t) →
        (r.timestamp ≤ t ∧ ∀ x ∈ cps, x.timestamp ≤ t → x.timestamp ≤ r.timestamp)) ∧
      ((∀ x ∈ cps, t < x.timestamp) → ∀ x ∈ cps, r.timestamp ≤ x.timestamp) := by
  cases cps with
  | nil => exact absurd rfl hne
  | cons c rest =>
    obtain ⟨h1, h2, h3⟩ := closest_foldl_spec t rest c
    exact ⟨_, rfl, h1, h2, h3⟩

/-- A checkpoint with a given timestamp, used as a concrete witness value. -/
def sampleCp (ts : Int) : CheckpointData :=
  { id := ['x'], turnIndex := some 0, sessionId := ['s'], headSha := ['h'],
    indexTreeSha := ['i'], worktreeTreeSha := ['w'], timestamp := ts }

/-- C2 witness at a concrete three-element list. -/
theorem spec_c2_witness :
    ∃ r, findClosestCheckpoint [sampleCp 10, sampleCp 5, sampleCp 20] 12 = some r ∧
      r ∈ [sampleCp 10, sampleCp 5, sampleCp 20] ∧
      ((∃ x ∈ [sampleCp 10, sampleCp 5, sampleCp 20], x.timestamp ≤ 12) →
        (r.timestamp ≤ 12 ∧ ∀ x ∈ [sampleCp 10, sampleCp 5, sampleCp 20],
          x.timestamp ≤ 12 → x.timestamp ≤ r.timestamp)) ∧
      ((∀ x ∈ [sampleCp 10, sampleCp 5, sampleCp 20], 12 < x.timestamp) →
        ∀ x ∈ [sampleCp 10, sampleCp 5, sampleCp 20], r.timestamp ≤ x.timestamp) :=
  spec_c2_closest_checkpoint [sampleCp 10, sampleCp 5, sampleCp 20] 12 (by decide)

/-! ## Claim C5: protective checkpoint before every restore

`saveAndRestore` (checkpoint.ts lines 194-213; identically part_003 lines
493-515) is modelled as the event trace it produces.  `createResult = none`
models `createCheckpoint` throwing, `restoreFails` models `restoreCheckpoint`
throwing; both are caught by the surrounding try/catch which then only
notifies. -/

def beforeRestoreLit : List Char :=
  ['-', 'b', 'e', 'f', 'o', 'r', 'e', '-', 'r', 'e', 's', 't', 'o', 'r', 'e', '-']

inductive CheckpointEvent where
  | createCheckpointCall (id : List Char) (sessionId : List Char) (ok : Bool)
  | restoreCheckpointCall (target : CheckpointData)
  | notify (isError : Bool)
deriving DecidableEq

def saveAndRestoreTrace (currentSessionId : List Char) (now : Int)
    (target : CheckpointData) (createResult : Option CheckpointData)
    (restoreFails : Bool) : List CheckpointEvent :=
  match createResult with
  | none =>
    [CheckpointEvent.createCheckpointCall
      (currentSessionId ++ beforeRestoreLit ++ intRepr now) currentSessionId false,
     CheckpointEvent.notify true]
  | some _ =>
    if restoreFails then
      [CheckpointEvent.createCheckpointCall
        (currentSessionId ++ beforeRestoreLit ++ intRepr now) currentSessionId true,
       CheckpointEvent.restoreCheckpointCall target,
       CheckpointEvent.notify true]
    else
      [CheckpointEvent.createCheckpointCall
        (currentSessionId ++ beforeRestoreLit ++ intRepr now) currentSessionId true,
       CheckpointEvent.restoreCheckpointCall target,
       CheckpointEvent.notify false]

/-- C5: on every restore path, whenever `restoreCheckpoint` is invoked, the
protective before-restore `createCheckpoint` has already completed
successfully: the trace starts with the successful create of the
`<sessionId>-before-restore-<timestamp>` checkpoint and the restore event
(necessarily of the selected target) comes strictly after it; if the
protective create fails, no restore happens at all. -/
theorem spec_c5_protective_create_before_restore (sid : List Char) (now : Int)
    (target : CheckpointData) (createResult : Option CheckpointData)
    (restoreFails : Bool) (cp : CheckpointData)
    (hmem : CheckpointEvent.restoreCheckpointCall cp ∈
      saveAndRestoreTrace sid now target createResult restoreFails) :
    (∃ c, createResult = some c) ∧
    cp = target ∧
    (saveAndRestoreTrace sid now target createResult restoreFails).head? =
      some (CheckpointEvent.createCheckpointCall
        (sid ++ beforeRestoreLit ++ intRepr now) sid true) ∧
    CheckpointEvent.restoreCheckpointCall cp ∈
      (saveAndRestoreTrace sid now target createResult restoreFails).tail := by
  cases createResult with
  | none => simp [saveAndRestoreTrace] at hmem
  | some c =>
    cases restoreFails <;> simp_all [saveAndRestoreTrace]

/-- C5 witness at a concrete successful trace. -/
theorem spec_c5_witness :
    (∃ c, (some (sampleCp 1) : Option CheckpointData) = some c) ∧
    sampleCp 3 = sampleCp 3 ∧
    (saveAndRestoreTrace ['s'] 9 (sampleCp 3) (some (sampleCp 1)) false).head? =
      some (CheckpointEvent.createCheckpointCall
        (['s'] ++ beforeRestoreLit ++ intRepr 9) ['s'] true) ∧
    CheckpointEvent.restoreCheckpointCall (sampleCp 3) ∈
      (saveAndRestoreTrace ['s'] 9 (sampleCp 3) (some (sampleCp 1)) false).tail :=
  spec_c5_protective_create_before_restore ['s'] 9 (sampleCp 3) (some (sampleCp 1))
    false (sampleCp 3) (by decide)

/-! ## Claim C6: fail-soft checkpoint loading

`loadCheckpointFromRef` (part_003 lines 208-246): any git failure is caught
and yields `null`; `store` models the composed `rev-parse --verify` +
`cat-file commit` lookup, `none` being a failure.  `loadAllCheckpoints`
(part_003 lines 266-301) maps the loader over the listed refs and keeps the
non-null, session-matching results; the low-priority variant processes the
refs in batches of three. -/

def loadCheckpointFromRef (store : List Char → Option (List Char))
    (dateParse : List Char → Int) (refName : List Char) : Option CheckpointData :=
  match store refName with
  | none => none
  | some msg => parseCheckpointMessage dateParse refName msg

/-- The filter `cp !== null && (!sessionFilter || cp.sessionId === sessionFilter)`
(part_003 lines 297-300). -/
def keepCheckpoint (sessionFilter : Option (List Char)) :
    Option CheckpointData → Option CheckpointData
  | none => none
  | some cp =>
    match sessionFilter with
    | none => some cp
    | some f => if cp.sessionId = f then some cp else none

def loadAllCheckpoints (store : List Char → Option (List Char))
    (dateParse : List Char → Int) (refs : List (List Char))
    (sessionFilter : Option (List Char)) : List CheckpointData :=
  (refs.map (loadCheckpointFromRef store dateParse)).filterMap
    (keepCheckpoint sessionFilter)

/-- The low-priority path: batches of `BATCH_SIZE = 3`, results concatenated in
order (part_003 lines 274-292). -/
def loadAllCheckpointsLowPriority (store : List Char → Option (List Char))
    (dateParse : List Char → Int) (refs : List (List Char))
    (sessionFilter : Option (List Char)) : List CheckpointData :=
  match refs with
  | [] => []
  | r :: rest =>
    (((r :: rest).take 3).map (loadCheckpointFromRef store dateParse)).filterMap
        (keepCheckpoint sessionFilter) ++
      loadAllCheckpointsLowPriority store dateParse ((r :: rest).drop 3) sessionFilter
termination_by refs.length
decreasing_by simp [List.length_drop]; omega

/-- A commit message is missing a required field when one of the five mandatory
keys has no non-empty first-match line (part_003 line 232). -/
def hasRequiredFields (msg : List Char) : Bool :=
  truthyStr (getField kwSessionId (splitOnChar '\n' msg)) &&
  truthyStr (getField kwTurn (splitOnChar '\n' msg)) &&
  truthyStr (getField kwHead (splitOnChar '\n' msg)) &&
  truthyStr (getField kwIndexTree (splitOnChar '\n' msg)) &&
  truthyStr (getField kwWorktreeTree (splitOnChar '\n' msg))

theorem parse_none_of_missing_field (dateParse : List Char → Int)
    (refName msg : List Char) (h : hasRequiredFields msg = false) :
    parseCheckpointMessage dateParse refName msg = none := by
  simp only [hasRequiredFields, Bool.and_eq_false_iff] at h
  unfold parseCheckpointMessage
  rcases h with ((((h | h) | h) | h) | h) <;> simp [h]

theorem loadAll_append (store : List Char → Option (List Char))
    (dateParse : List Char → Int) (l₁ l₂ : List (List Char))
    (sessionFilter : Option (List Char)) :
    loadAllCheckpoints store dateParse (l₁ ++ l₂) sessionFilter =
      loadAllCheckpoints store dateParse l₁ sessionFilter ++
        loadAllCheckpoints store dateParse l₂ sessionFilter := by
  simp [loadAllCheckpoints, List.filterMap_append]

theorem loadAll_mem_source (store : List Char → Option (List Char))
    (dateParse : List Char → Int) (sessionFilter : Option (List Char)) :
    ∀ (refs : List (List Char)) (cp : CheckpointData),
      cp ∈ loadAllCheckpoints store dateParse refs sessionFilter →
      ∃ ref ∈ refs, loadCheckpointFromRef store dateParse ref = some cp := by
  intro refs
  induction refs with
  | nil => intro cp hcp; simp [loadAllCheckpoints] at hcp
  | cons r rest ih =>
    intro cp hcp
    simp only [loadAllCheckpoints, List.map_cons, List.filterMap_cons] at hcp
    cases hk : keepCheckpoint sessionFilter (loadCheckpointFromRef store dateParse r) with
    | none =>
      rw [hk] at hcp
      obtain ⟨ref, hr, hl⟩ := ih cp hcp
      exact ⟨ref, List.mem_cons_of_mem _ hr, hl⟩
    | some y =>
      rw [hk] at hcp
      rcases List.mem_cons.mp hcp with hcp | hcp
      · subst hcp
        unfold keepCheckpoint at hk
        cases hload : loadCheckpointFromRef store dateParse r with
        | none => rw [hload] at hk; exact absurd hk (by simp)
        | some z =>
          rw [hload] at hk
          refine ⟨r, List.mem_cons_self _ _, ?_⟩
          rw [hload]
          cases sessionFilter with
          | none => simp at hk; rw [hk]
          | some f =>
            simp only [] at hk
            by_cases hz : z.sessionId = f
            · simp [hz] at hk; rw [hk]
            · simp [hz] at hk
      · obtain ⟨ref, hr, hl⟩ := ih cp hcp
        exact ⟨ref, List.mem_cons_of_mem _ hr, hl⟩

theorem loadAll_filtered (store : List Char → Option (List Char))
    (dateParse : List Char → Int) (flt : List Char) :
    ∀ (refs : List (List Char)) (cp : CheckpointData),
      cp ∈ loadAllCheckpoints store dateParse refs (some flt) →
      cp.sessionId = flt := by
  intro refs
  induction refs with
  | nil => intro cp hcp; simp [loadAllCheckpoints] at hcp
  | cons r rest ih =>
    intro cp hcp
    simp only [loadAllCheckpoints, List.map_cons, List.filterMap_cons] at hcp
    cases hk : keepCheckpoint (some flt) (loadCheckpointFromRef store dateParse r) with
    | none =>
      rw [hk] at hcp
      exact ih cp hcp
    | some y =>
      rw [hk] at hcp
      rcases List.mem_cons.mp hcp with hcp | hcp
      · subst hcp
        unfold keepCheckpoint at hk
        cases hload : loadCheckpointFromRef store dateParse r with
        | none => rw [hload] at hk; exact absurd hk (by simp)
        | some z =>
          rw [hload] at hk
          simp only [] at hk
          by_cases hz : z.sessionId = flt
          · simp [hz] at hk; rw [← hk]; exact hz
          · simp [hz] at hk
      · exact ih cp hcp

theorem loadAllLow_eq_aux (store : List Char → Option (List Char))
    (dateParse : List Char → Int) (sessionFilter : Option (List Char)) :
    ∀ (n : Nat) (refs : List (List Char)), refs.length ≤ n →
      loadAllCheckpointsLowPriority store dateParse refs sessionFilter =
        loadAllCheckpoints store dateParse refs sessionFilter := by
  intro n
  induction n with
  | zero =>
    intro refs h
    cases refs with
    | nil => simp [loadAllCheckpointsLowPriority, loadAllCheckpoints]
    | cons r rest => simp at h
  | succ n ih =>
    intro refs h
    cases refs with
    | nil => simp [loadAllCheckpointsLowPriority, loadAllCheckpoints]
    | cons r rest =>
      rw [loadAllCheckpointsLowPriority]
      rw [ih ((r :: rest).drop 3)
        (by simp only [List.length_drop, List.length_cons] at h ⊢; omega)]
      conv_rhs => rw [show r :: rest = (r :: rest).take 3 ++ (r :: rest).drop 3 from
        (List.take_append_drop 3 (r :: rest)).symm]
      rw [loadAll_append]
      rfl

/-- C6: checkpoint loading is fail-soft and returns only fully parsed
checkpoints.  Every returned checkpoint comes from a ref whose load fully
succeeded; a failed git lookup or a commit message missing a required field
makes `loadCheckpointFromRef` return `null`; such a ref is skipped without
affecting the other refs; with a session filter every result carries that
session id; and the batched low-priority path returns exactly the plain
result. -/
theorem spec_c6_load_fail_soft (store : List Char → Option (List Char))
    (dateParse : List Char → Int) (refs : List (List Char))
    (sessionFilter : Option (List Char)) :
    (∀ cp ∈ loadAllCheckpoints store dateParse refs sessionFilter,
      ∃ ref ∈ refs, loadCheckpointFromRef store dateParse ref = some cp) ∧
    (∀ ref, store ref = none → loadCheckpointFromRef store dateParse ref = none) ∧
    (∀ ref msg, store ref = some msg → hasRequiredFields msg = false →
      loadCheckpointFromRef store dateParse ref = none) ∧
    (∀ l₁ l₂ r, loadCheckpointFromRef store dateParse r = none →
      loadAllCheckpoints store dateParse (l₁ ++ r :: l₂) sessionFilter =
        loadAllCheckpoints store dateParse (l₁ ++ l₂) sessionFilter) ∧
    (∀ flt, sessionFilter = some flt →
      ∀ cp ∈ loadAllCheckpoints store dateParse refs sessionFilter,
        cp.sessionId = flt) ∧
    loadAllCheckpointsLowPriority store dateParse refs sessionFilter =
      loadAllCheckpoints store dateParse refs sessionFilter := by
  refine ⟨fun cp hcp => loadAll_mem_source store dateParse sessionFilter refs cp hcp,
    ?_, ?_, ?_, ?_, ?_⟩
  · intro ref h
    simp [loadCheckpointFromRef, h]
  · intro ref msg hs hf
    simp [loadCheckpointFromRef, hs, parse_none_of_missing_field dateParse ref msg hf]
  · intro l₁ l₂ r hr
    rw [loadAll_append, loadAll_append]
    have : loadAllCheckpoints store dateParse (r :: l₂) sessionFilter =
        loadAllCheckpoints store dateParse l₂ sessionFilter := by
      simp [loadAllCheckpoints, hr, keepCheckpoint]
    rw [this]
  · intro flt hf cp hcp
    subst hf
    exact loadAll_filtered store dateParse flt refs cp hcp
  · exact loadAllLow_eq_aux store dateParse sessionFilter refs.length refs le_rfl

def sampleDateParse : List Char → Int := fun s => (jsParseInt s).getD 0

/-- A git-object lookup with one good ref and failures elsewhere. -/
def sampleStore : List Char → Option (List Char) := fun r =>
  if r = ['g'] then some (checkpointMessage ['g'] ['s'] 1 ['h'] ['i'] ['w'] ['5'])
  else none

/-- C6 witness: a ref whose lookup fails is skipped without aborting the rest. -/
theorem spec_c6_witness :
    loadCheckpointFromRef sampleStore sampleDateParse ['b'] = none ∧
    loadAllCheckpoints sampleStore sampleDateParse ([['g']] ++ ['b'] :: []) none =
      loadAllCheckpoints sampleStore sampleDateParse ([['g']] ++ []) none :=
  ⟨by decide,
   (spec_c6_load_fail_soft sampleStore sampleDateParse [['g'], ['b']] none).2.2.2.1
     [['g']] [] ['b'] (by decide)⟩

/-! ## Claim C7: restore idempotence

Abstract git semantics for the command sequence issued by `restoreCheckpoint`
(part_003 lines 194-206): `clean -fd`, conditionally `reset --hard <head>`,
`read-tree --reset <worktree-tree>`, `checkout-index -a -f`,
`read-tree --reset <index-tree>`.  Paths and blob contents are naturals; a
tree is an association list (first entry wins); `lookupTree` maps an object
name (commit or tree sha) to the tree it denotes; `ign` is the gitignore
predicate.  Command semantics:

- `clean -fd` deletes untracked files that are not ignored, and nothing else;
- `reset --hard sha` sets HEAD and the index to the commit's tree, writes
  every file of that tree, deletes files tracked in the old index but absent
  from the target tree, and leaves other files alone;
- `read-tree --reset tree` replaces the index only;
- `checkout-index -a -f` writes every index entry into the worktree, leaving
  files outside the index alone. -/

abbrev TreeEntries := List (Nat × Nat)

def lookupEntry : TreeEntries → Nat → Option Nat
  | [], _ => none
  | (q, b) :: rest, p => if q = p then some b else lookupEntry rest p

structure RepoState where
  head : List Char
  index : TreeEntries
  worktree : TreeEntries
deriving DecidableEq

def gitCleanFd (ign : Nat → Bool) (s : RepoState) : RepoState :=
  { s with worktree :=
      s.worktree.filter (fun pb => (lookupEntry s.index pb.1).isSome || ign pb.1) }

def gitResetHard (lookupTree : List Char → TreeEntries) (sha : List Char)
    (s : RepoState) : RepoState :=
  { head := sha, index := lookupTree sha,
    worktree := lookupTree sha ++
      s.worktree.filter (fun pb => (lookupEntry s.index pb.1).isNone) }

def gitReadTreeReset (lookupTree : List Char → TreeEntries) (sha : List Char)
    (s : RepoState) : RepoState :=
  { s with index := lookupTree sha }

def gitCheckoutIndexAF (s : RepoState) : RepoState :=
  { s with worktree := s.index ++ s.worktree }

/-- Embeds `restoreCheckpoint` (part_003 lines 194-206) under the abstract semantics. -/
def restoreCheckpointModel (lookupTree : List Char → TreeEntries) (ign : Nat → Bool)
    (cp : CheckpointData) (s : RepoState) : RepoState :=
  let s1 := gitCleanFd ign s
  let s2 := if cp.headSha ≠ ZEROS then gitResetHard lookupTree cp.headSha s1 else s1
  let s3 := gitReadTreeReset lookupTree cp.worktreeTreeSha s2
  let s4 := gitCheckoutIndexAF s3
  gitReadTreeReset lookupTree cp.indexTreeSha s4

/-- A checkpoint with an unborn HEAD whose recorded trees are empty. -/
def cpUnborn : CheckpointData :=
  { id := ['u'], turnIndex := some 0, sessionId := ['s'], headSha := ZEROS,
    indexTreeSha := ['I'], worktreeTreeSha := ['W'], timestamp := 0 }

/-- A checkpoint whose index tree tracks path 1 while worktree tree and head
tree do not (a file staged at capture time but ignored, so `add -A` into the
scratch index skipped it). -/
def cpStaged : CheckpointData :=
  { id := ['v'], turnIndex := some 0, sessionId := ['s'], headSha := ['H'],
    indexTreeSha := ['I'], worktreeTreeSha := ['W'], timestamp := 0 }

def treesEmpty : List Char → TreeEntries := fun _ => []

def treesStaged : List Char → TreeEntries := fun sha =>
  if sha = ['I'] then [(1, 10)] else []

def ignNone : Nat → Bool := fun _ => false

def ignPathOne : Nat → Bool := fun p => p = 1

/-- Pre-restore state for the unborn scenario: path 1 is tracked and present. -/
def stateUnborn : RepoState :=
  { head := ['h'], index := [(1, 10)], worktree := [(1, 10)] }

/-- Pre-restore state for the ignored-file scenario: path 1 is untracked,
ignored, and present with content 5. -/
def stateIgnored : RepoState :=
  { head := ['h'], index := [], worktree := [(1, 5)] }

/-- C7 counterexample: restoring twice is not always the same as restoring
once.  With an unborn-HEAD checkpoint, path 1 (tracked before the restore but
absent from the checkpoint) survives the first restore and is deleted by the
second one's `clean -fd`.  With a checkpoint whose index tree tracks a path
missing from its worktree and head trees, an ignored file at that path
survives the first restore and is deleted by the second one's `reset --hard`. -/
theorem spec_c7_counterexample :
    cpUnborn.headSha = ZEROS ∧
    lookupEntry (restoreCheckpointModel treesEmpty ignNone cpUnborn
        (restoreCheckpointModel treesEmpty ignNone cpUnborn stateUnborn)).worktree 1 ≠
      lookupEntry (restoreCheckpointModel treesEmpty ignNone cpUnborn
        stateUnborn).worktree 1 ∧
    cpStaged.headSha ≠ ZEROS ∧
    lookupEntry (restoreCheckpointModel treesStaged ignPathOne cpStaged
        (restoreCheckpointModel treesStaged ignPathOne cpStaged stateIgnored)).worktree 1 ≠
      lookupEntry (restoreCheckpointModel treesStaged ignPathOne cpStaged
        stateIgnored).worktree 1 := by
  refine ⟨by decide, by decide, by decide, by decide⟩

theorem isNone_and_isSome_false (o : Option Nat) : (o.isNone && o.isSome) = false := by
  cases o <;> rfl

theorem isNone_and_isSome_and_false (o : Option Nat) (b : Bool) :
    (o.isNone && (o.isSome && b)) = false := by
  cases o <;> simp

theorem filter_isSome_then_isNone (idx w : TreeEntries) :
    (w.filter (fun pb => (lookupEntry idx pb.1).isSome)).filter
      (fun pb => (lookupEntry idx pb.1).isNone) = [] := by
  induction w with
  | nil => rfl
  | cons pb rest ih =>
    by_cases h : (lookupEntry idx pb.1).isSome = true
    · simp only [List.filter_cons, h, if_true]
      have hn : (lookupEntry idx pb.1).isNone = false := by
        cases hx : lookupEntry idx pb.1 with
        | none => rw [hx] at h; exact absurd h (by simp)
        | some b => simp
      simp [hn, ih]
    · simp only [List.filter_cons, h]
      simp only [Bool.false_eq_true, if_false]
      exact ih

/-- C7 (amended): restore is idempotent provided the checkpoint's HEAD is not
the unborn sentinel and nothing is gitignored; the counterexample shows both
restrictions are necessary. -/
theorem spec_c7_restore_idempotent_amended (lookupTree : List Char → TreeEntries)
    (cp : CheckpointData) (s : RepoState) (hh : cp.headSha ≠ ZEROS) :
    restoreCheckpointModel lookupTree (fun _ => false) cp
        (restoreCheckpointModel lookupTree (fun _ => false) cp s) =
      restoreCheckpointModel lookupTree (fun _ => false) cp s := by
  simp [restoreCheckpointModel, gitCleanFd, gitResetHard, gitReadTreeReset,
    gitCheckoutIndexAF, hh, Bool.or_false, filter_isSome_then_isNone,
    isNone_and_isSome_false, isNone_and_isSome_and_false, List.append_nil]

/-- C7 witness for the amended statement at a concrete born-HEAD checkpoint. -/
theorem spec_c7_witness :
    restoreCheckpointModel treesStaged (fun _ => false) cpStaged
        (restoreCheckpointModel treesStaged (fun _ => false) cpStaged stateIgnored) =
      restoreCheckpointModel treesStaged (fun _ => false) cpStaged stateIgnored :=
  spec_c7_restore_idempotent_amended treesStaged cpStaged stateIgnored (by decide)

/-! ## Claim C10: session-id validation

`isSafeId` (part_003 line 304), the session-id extraction paths
(part_003 lines 306-326 and the session handler lines 343-374), and the two
ref-name construction sites: the turn checkpoint (lines 529-551, guarded by
`if (!currentSessionId) return`) and the before-restore checkpoint
(lines 493-501, unguarded). -/

/-- Embeds `/^[\w-]+$/.test(id)` (part_003 line 304). -/
def isSafeId (s : List Char) : Bool :=
  !s.isEmpty && s.all (fun c => isWordChar c || c = '-')

/-- Embeds `header?.id && isSafeId(header.id) ? header.id : ""`
(part_003 lines 352 and 372). -/
def sessionIdFromHeader (headerId : Option (List Char)) : List Char :=
  match headerId with
  | some hid => if !hid.isEmpty && isSafeId hid then hid else []
  | none => []

def isHexDashChar (c : Char) : Bool :=
  ('0' ≤ c && c ≤ '9') || ('a' ≤ c && c ≤ 'f') || c = '-'

/-- The filename fallback `/_([0-9a-f-]{36})\.jsonl$/` (part_003 line 320). -/
def filenameSessionId (basename : List Char) : Option (List Char) :=
  match dropLit ['l', 'n', 'o', 's', 'j', '.'] basename.reverse with
  | none => none
  | some restRev =>
    if (restRev.take 36).length = 36 && (restRev.take 36).all isHexDashChar &&
        (restRev.drop 36).head? = some '_'
    then some (restRev.take 36).reverse else none

def getSessionIdFromFilename (basename : List Char) : List Char :=
  match filenameSessionId basename with
  | some m => if isSafeId m then m else []
  | none => []

/-- Embeds `getSessionIdFromFile` (part_003 lines 306-326): the id extracted from the
file content (modelled by `contentId`; `none` is a read/JSON failure) when it
passes `isSafeId`, else the validated filename fallback, else `""`. -/
def getSessionIdFromFile (contentId : Option (List Char)) (basename : List Char) :
    List Char :=
  match contentId with
  | some cid => if isSafeId cid then cid else getSessionIdFromFilename basename
  | none => getSessionIdFromFilename basename

def turnLit : List Char := ['-', 't', 'u', 'r', 'n', '-']

/-- The turn_start handler's checkpoint call (part_003 lines 529-541): skipped
when the session id is empty, otherwise the ref id
`<sessionId>-turn-<turnIndex>-<timestamp>` with that session id. -/
def turnStartCheckpointCall (currentSessionId : List Char) (turnIndex : Nat)
    (timestamp : Int) : Option (List Char × List Char) :=
  if currentSessionId.isEmpty then none
  else some (currentSessionId ++ turnLit ++ natRepr turnIndex ++ '-' :: intRepr timestamp,
    currentSessionId)

/-- The before-restore checkpoint call (part_003 lines 495-501): built
unconditionally from the current session id. -/
def beforeRestoreCheckpointCall (currentSessionId : List Char) (now : Int) :
    List Char × List Char :=
  (currentSessionId ++ beforeRestoreLit ++ intRepr now, currentSessionId)

/-- C10 counterexample: a session header id `"a;b"` fails `isSafeId` and is
replaced by the empty string, but the before-restore path still builds a
checkpoint — with a session id that has not passed `isSafeId` — instead of
skipping creation: the produced ref name is `-before-restore-5`. -/
theorem spec_c10_counterexample :
    sessionIdFromHeader (some ['a', ';', 'b']) = [] ∧
    isSafeId (beforeRestoreCheckpointCall (sessionIdFromHeader (some ['a', ';', 'b'])) 5).2
      = false ∧
    (beforeRestoreCheckpointCall (sessionIdFromHeader (some ['a', ';', 'b'])) 5).1 =
      beforeRestoreLit ++ intRepr 5 := by
  refine ⟨by decide, by decide, by decide⟩

theorem sessionIdFromHeader_safe (headerId : Option (List Char)) :
    sessionIdFromHeader headerId = [] ∨ isSafeId (sessionIdFromHeader headerId) = true := by
  cases headerId with
  | none => exact Or.inl rfl
  | some hid =>
    unfold sessionIdFromHeader
    by_cases h : (!hid.isEmpty && isSafeId hid) = true
    · right
      simp only [h, if_true]
      exact ((Bool.and_eq_true _ _).mp h).2
    · left
      simp [h]

theorem getSessionIdFromFilename_safe (basename : List Char) :
    getSessionIdFromFilename basename = [] ∨
      isSafeId (getSessionIdFromFilename basename) = true := by
  unfold getSessionIdFromFilename
  cases hf : filenameSessionId basename with
  | none => exact Or.inl rfl
  | some m =>
    by_cases hm : isSafeId m = true
    · right; simp [hm]
    · left; simp [hm]

theorem getSessionIdFromFile_safe (contentId : Option (List Char)) (basename : List Char) :
    getSessionIdFromFile contentId basename = [] ∨
      isSafeId (getSessionIdFromFile contentId basename) = true := by
  cases contentId with
  | none => exact getSessionIdFromFilename_safe basename
  | some cid =>
    unfold getSessionIdFromFile
    by_cases hc : isSafeId cid = true
    · right; simp [hc]
    · simp only [hc]
      simp only [Bool.false_eq_true, if_false]
      exact getSessionIdFromFilename_safe basename

theorem turnCall_all_safe (sid : List Char) (ti : Nat) (ts : Int)
    (h : sid = [] ∨ isSafeId sid = true) :
    Option.all (fun call => isSafeId call.2)
      (turnStartCheckpointCall sid ti ts) = true := by
  rcases h with h | h
  · subst h
    rfl
  · have hne : sid.isEmpty = false := by
      rcases (Bool.and_eq_true _ _).mp h with ⟨h1, _⟩
      simp only [Bool.not_eq_true'] at h1
      exact h1
    simp [turnStartCheckpointCall, hne, Option.all, h]

theorem beforeRestore_chars_safe (sid : List Char) (now : Int)
    (h : sid = [] ∨ isSafeId sid = true) :
    (beforeRestoreCheckpointCall sid now).2.all
      (fun c => isWordChar c || c = '-') = true := by
  rcases h with h | h
  · subst h; rfl
  · exact ((Bool.and_eq_true _ _).mp h).2

/-- C10 (amended): every session id interpolated into a checkpoint ref name is
either the empty string or passes `isSafeId`; ids from session headers or
files that fail validation are replaced by the empty string; the turn path
skips creation on an empty id, while the before-restore path proceeds with the
empty id — in all cases no session id containing a character outside
`[A-Za-z0-9_-]` is ever interpolated into a git command or ref name. -/
theorem spec_c10_session_ids_validated (headerId contentId : Option (List Char))
    (basename : List Char) (ti : Nat) (ts now : Int) :
    (sessionIdFromHeader headerId = [] ∨
      isSafeId (sessionIdFromHeader headerId) = true) ∧
    (getSessionIdFromFile contentId basename = [] ∨
      isSafeId (getSessionIdFromFile contentId basename) = true) ∧
    turnStartCheckpointCall [] ti ts = none ∧
    Option.all (fun call => isSafeId call.2)
      (turnStartCheckpointCall (sessionIdFromHeader headerId) ti ts) = true ∧
    Option.all (fun call => isSafeId call.2)
      (turnStartCheckpointCall (getSessionIdFromFile contentId basename) ti ts) = true ∧
    (beforeRestoreCheckpointCall (sessionIdFromHeader headerId) now).2.all
      (fun c => isWordChar c || c = '-') = true ∧
    (beforeRestoreCheckpointCall (getSessionIdFromFile contentId basename) now).2.all
      (fun c => isWordChar c || c = '-') = true :=
  ⟨sessionIdFromHeader_safe headerId,
   getSessionIdFromFile_safe contentId basename,
   rfl,
   turnCall_all_safe _ ti ts (sessionIdFromHeader_safe headerId),
   turnCall_all_safe _ ti ts (getSessionIdFromFile_safe contentId basename),
   beforeRestore_chars_safe _ now (sessionIdFromHeader_safe headerId),
   beforeRestore_chars_safe _ now (getSessionIdFromFile_safe contentId basename)⟩

/-! ## Claim C3, counterexample

The before-restore path (part_003 lines 495-501) calls `createCheckpoint` with
`currentSessionId` unguarded, and the session handler (line 352) sets it to
the empty string when the header id fails `isSafeId`.  For that reachable
checkpoint the written commit message contains the line `sessionId ` with an
empty value, the field regex `^sessionId (.+)$` finds no match, and
`loadCheckpointFromRef` returns `null`: the round trip does not reproduce the
created checkpoint. -/

/-- C3 counterexample: a checkpoint created with the empty session id — as the
before-restore path does after an invalid header id — does not round-trip:
parsing the written message yields `none` instead of the created
`CheckpointData`. -/
theorem spec_c3_counterexample :
    (beforeRestoreCheckpointCall (sessionIdFromHeader (some ['a', ';', 'b'])) 5).2 = [] ∧
    parseCheckpointMessage (fun s => (jsParseInt s).getD 0) ['a']
      (checkpointMessage ['a'] [] 0 ['h'] ['i'] ['w'] ['5']) = none := by
  refine ⟨by decide, by decide⟩

end PiHooks
